import Mathlib

/-!
Collision-geometry compiler of `Character` (Game/Source/Character.cpp)

A shallow embedding of `Character::SetMaskFlag` and `Character::CreatePhysBody`
together with the library pieces they lean on (the pugixml node handles, the
`std::regex` search loop and `std::stoi`), and of the tile-set lookup of
Game/Source/Map.cpp (`Map::GetTilesetFromTileId`, `TileSet::GetTileRect`),
followed by the properties proved about them.

Conventions: `int` values are integers; in `Character.cpp` and in
`GetTileRect` their arithmetic is exact (signed overflow, undefined in the
source, is not modelled there), while the sum compared in
`GetTilesetFromTileId` wraps to 32 bits; `float32` is an abstract type `F`,
since the function only moves floats around; a function that can terminate
abnormally returns an `Option`, `none` standing for the exception or the crash.
-/

namespace Citm

/-! ## pugixml handles -/

/-- An element of the parsed XML document: tag name, attributes in document
order, child nodes in document order. -/
inductive XmlTree where
  | mk (name : String) (attrs : List (String × String)) (children : List XmlTree)

namespace XmlTree

/-- Tag name of an element. -/
def name : XmlTree → String
  | mk n _ _ => n

/-- Attribute list of an element. -/
def attrs : XmlTree → List (String × String)
  | mk _ a _ => a

/-- Child list of an element. -/
def children : XmlTree → List XmlTree
  | mk _ _ c => c

end XmlTree

/-- A `pugi::xml_node` handle: `none` is the null handle. -/
abbrev xml_node := Option XmlTree

/-- A `pugi::xml_attribute` handle: `none` is the null handle, `some v` carries
the attribute text. -/
abbrev xml_attribute := Option String

namespace xml_node

/-- The call `xml_node::empty()`. -/
def empty (n : xml_node) : Bool := n.isNone

/-- The call `xml_node::name()`: the tag, or the empty string for a null handle. -/
def name (n : xml_node) : String :=
  match n with
  | none => ""
  | some t => t.name

/-- The call `xml_node::child(name)`: first child with that tag. -/
def child (n : xml_node) (tag : String) : xml_node :=
  match n with
  | none => none
  | some t => t.children.find? (fun c => decide (c.name = tag))

/-- The call `xml_node::first_child()`. -/
def first_child (n : xml_node) : xml_node :=
  match n with
  | none => none
  | some t => t.children.head?

/-- The range `xml_node::children()`. -/
def children (n : xml_node) : List XmlTree :=
  match n with
  | none => []
  | some t => t.children

/-- The range `xml_node::children(name)`: the children with that tag. -/
def children_named (n : xml_node) (tag : String) : List XmlTree :=
  (children n).filter (fun c => decide (c.name = tag))

/-- The call `xml_node::attribute(name)`: first attribute with that name. -/
def attr (n : xml_node) (key : String) : xml_attribute :=
  match n with
  | none => none
  | some t => (t.attrs.find? (fun a => decide (a.1 = key))).map Prod.snd

end xml_node

/-- The call `xml_attribute::as_string()`, whose default is the empty string. -/
def as_string (a : xml_attribute) : String := a.getD ""

/-- The conversion `xml_attribute::operator bool`: the handle is not null. -/
def attrPresent (a : xml_attribute) : Bool := a.isSome

/-! ## Collaborators declared outside the listed sources -/

/-- The numeric and engine-side collaborators of `Character.cpp` whose
definitions live in other files: the text conversions behind
`as_int`/`as_float`/`as_bool`, the `PIXEL_TO_METERS` conversion (scalar and
point form), `BodyTypeStrToEnum`, and the float literals the function uses.
`F` stands for `float32`, `B` for the body-type enumeration. -/
structure Externals (F B : Type) where
  strToInt : String → Int
  strToFloat : String → F
  strToBool : String → Bool
  pixelToMeters : Int → F
  pixelToMetersVec : Int × Int → F × F
  bodyTypeStrToEnum : String → B
  zero : F
  one : F
  hundredth : F

/-- The call `xml_attribute::as_int()`: 0 on a null handle. -/
def as_int {F B : Type} (X : Externals F B) (a : xml_attribute) : Int :=
  match a with
  | none => 0
  | some v => X.strToInt v

/-- The call `xml_attribute::as_float()`: 0.0 on a null handle. -/
def as_float {F B : Type} (X : Externals F B) (a : xml_attribute) : F :=
  match a with
  | none => X.zero
  | some v => X.strToFloat v

/-- The call `xml_attribute::as_bool()`: false on a null handle. -/
def as_bool {F B : Type} (X : Externals F B) (a : xml_attribute) : Bool :=
  match a with
  | none => false
  | some v => X.strToBool v

/-- Modelled from the spec: the helper `StrEquals` is declared outside the
listed sources; the spec describes its use as a literal, case-sensitive
comparison of the two strings. -/
def StrEquals (a b : String) : Bool := decide (a = b)

/-- The enumerators of `ColliderLayers` used by `SetMaskFlag`; their numeric
values are declared in a header outside the listed sources. -/
structure ColliderLayers where
  ENEMIES : Nat
  TRIGGERS : Nat
  CHECKPOINTS : Nat
  PLATFORMS : Nat
  ITEMS : Nat

/-- The conversion `static_cast<uint16>`. -/
def toUInt16 (n : Nat) : Nat := n % 65536

/-! ## `Character::SetMaskFlag` -/

/-- The function `Character::SetMaskFlag`. -/
def SetMaskFlag (L : ColliderLayers) (name : String)
    (colliderGroupNode : xml_node) (_colliderNode : xml_node) : Nat :=
  let maskFlag : Nat := 0x0001
  if StrEquals name "player" then
    if StrEquals (as_string (colliderGroupNode.attr "name")) "CharacterSensor" then
      toUInt16 (L.ENEMIES ||| L.TRIGGERS ||| L.CHECKPOINTS)
    else if StrEquals (as_string (colliderGroupNode.attr "name")) "Terrain" then
      toUInt16 (L.PLATFORMS ||| L.ITEMS)
    else maskFlag
  else maskFlag

/-! ## The standard-library pieces used by the point parser

The pattern of the source is an ECMAScript `std::regex`; matching is the
backtracking search of that grammar: every quantifier is greedy, alternatives
are explored in priority order and the first complete match wins. `Re.run`
lists the ways an expression can match a prefix of its input in exactly that
priority order, so the head of the list is the match the library reports. -/

/-- One way of matching a prefix of the input: the characters consumed, the
input left over and the capture groups closed on the way (the last entry for
an index is the current one). -/
structure MatchRes where
  consumed : List Char
  rest : List Char
  caps : List (Nat × List Char)
deriving DecidableEq, Repr

/-- The empty match at input `s`. -/
def MatchRes.eps (s : List Char) : MatchRes := ⟨[], s, []⟩

/-- Continue match `r` with a match `r2` of what `r` left over. -/
def MatchRes.andThen (r r2 : MatchRes) : MatchRes :=
  ⟨r.consumed ++ r2.consumed, r2.rest, r.caps ++ r2.caps⟩

/-- The accessor `match[i].str()`: the text of capture group `i`, empty when
the group did not take part in the match. -/
def MatchRes.sub (r : MatchRes) (i : Nat) : List Char :=
  match r.caps.reverse.find? (fun p => p.1 == i) with
  | some p => p.2
  | none => []

/-- The fragment of the ECMAScript grammar the source pattern uses: a literal
character, the class `\d`, concatenation, a greedy quantifier `{lo,hi}`
(`hi = none` for an unbounded one, so `?` is `{0,1}`, `*` is `{0,}` and `+`
is `{1,}`), and a capturing group. -/
inductive Re where
  | chr (c : Char)
  | digit
  | seq (a b : Re)
  | rep (a : Re) (lo : Nat) (hi : Option Nat)
  | group (i : Nat) (a : Re)

/-- Greedy optional iterations, at most `n` of them: one more iteration is
tried first, and an iteration that consumes nothing is rejected (the
empty-check of the ECMAScript repeat matcher); stopping here is the fallback. -/
def atMost (body : List Char → List MatchRes) : Nat → List Char → List MatchRes
  | 0, s => [MatchRes.eps s]
  | n + 1, s =>
    ((body s).filter (fun r => decide (r.rest.length < s.length))).flatMap
        (fun r => (atMost body n r.rest).map r.andThen)
      ++ [MatchRes.eps s]

/-- The quantifier `{lo, lo + extra}`: `lo` mandatory iterations followed by up
to `extra` optional ones. -/
def atLeast (body : List Char → List MatchRes) (extra : Nat) :
    Nat → List Char → List MatchRes
  | 0, s => atMost body extra s
  | lo + 1, s => (body s).flatMap (fun r => (atLeast body extra lo r.rest).map r.andThen)

/-- All matches of an expression against a prefix of `s`, in backtracking
priority order. An unbounded quantifier is given `s.length` optional
iterations, which cannot be exhausted because each one consumes a character. -/
def Re.run : Re → List Char → List MatchRes
  | .chr c, s =>
    match s with
    | x :: xs => if x = c then [⟨[x], xs, []⟩] else []
    | [] => []
  | .digit, s =>
    match s with
    | x :: xs => if x.isDigit then [⟨[x], xs, []⟩] else []
    | [] => []
  | .seq a b, s => (a.run s).flatMap (fun r => (b.run r.rest).map r.andThen)
  | .rep a lo hi, s =>
    atLeast a.run (match hi with | some h => h - lo | none => s.length) lo s
  | .group i a, s =>
    (a.run s).map (fun r => ⟨r.consumed, r.rest, r.caps ++ [(i, r.consumed)]⟩)

/-- The call `std::regex_search`: the match at the leftmost start position that
has one. -/
def regexSearch (re : Re) : List Char → Option MatchRes
  | [] => (re.run []).head?
  | c :: cs =>
    match (re.run (c :: cs)).head? with
    | some r => some r
    | none => regexSearch re cs

/-- The loop over `std::sregex_iterator`: each search resumes where the
previous match ended. The zero-length-match rule of the iterator is not
modelled (the loop stops at such a match); the pattern of the source cannot
match the empty string. -/
def regexIter (re : Re) : Nat → List Char → List MatchRes
  | 0, _ => []
  | fuel + 1, s =>
    match regexSearch re s with
    | none => []
    | some r =>
      if r.rest.length < s.length then r :: regexIter re fuel r.rest else [r]

/-- All matches of `re` in `s`, left to right. Every match of the loop
shortens the input, so `s.length + 1` rounds always suffice. -/
def regexMatches (re : Re) (s : List Char) : List MatchRes :=
  regexIter re (s.length + 1) s

/-- The predicate `isspace` of the C locale. -/
def isspace (c : Char) : Bool :=
  c = ' ' || c = '\t' || c = '\n' || c = '\x0b' || c = '\x0c' || c = '\r'

/-- Value of a run of decimal digits. -/
def digitsValue (ds : List Char) : Nat :=
  ds.foldl (fun acc d => 10 * acc + (d.toNat - 48)) 0

/-- The optional sign in front of a number: whether it is a minus sign, and the
text after it. -/
def readSign (s : List Char) : Bool × List Char :=
  match s with
  | '-' :: t => (true, t)
  | '+' :: t => (false, t)
  | t => (false, t)

/-- The call `std::stoi(str)` in base 10: leading white space is skipped, an
optional sign is read, then the longest run of digits. `none` stands for the
exception it throws (`invalid_argument` when there is no digit,
`out_of_range` when the value does not fit an `int`). -/
def stoi (s : List Char) : Option Int :=
  let signed := readSign (s.dropWhile isspace)
  let ds := signed.2.takeWhile Char.isDigit
  if ds = [] then none
  else
    let v : Int := if signed.1 then -(digitsValue ds : Int) else (digitsValue ds : Int)
    if -2147483648 ≤ v ∧ v ≤ 2147483647 then some v else none

/-- The sub-pattern `-?\d{1,3}` of a coordinate's integer part. -/
def intPart : Re := .seq (.rep (.chr '-') 0 (some 1)) (.rep .digit 1 (some 3))

/-- The sub-pattern `(?:\.\d+)*` that swallows decimal fractions. -/
def fracPart : Re := .rep (.seq (.chr '.') (.rep .digit 1 none)) 0 none

/-- The pattern `(-?\d{1,3})(?:\.\d+)*,(-?\d{1,3})(?:\.\d+)*` of the source. -/
def pointsRegex : Re :=
  .seq (.group 1 intPart) (.seq fracPart (.seq (.chr ',') (.seq (.group 2 intPart) fracPart)))

/-! ## `Character::CreatePhysBody` -/

/-- The type `iPoint`: a pair of `int` pixel coordinates. -/
abbrev iPoint := Int × Int

/-- The arguments of one `app->physics->CreateBody` call. -/
structure BodyRequest (F B : Type) where
  position : iPoint
  bodyType : B
  angle : F
  damping : F × F
  gravityScale : F
deriving DecidableEq, Repr

/-- The value `ShapeData shape(shapeType, tempData)`: the shape built from a
kind tag and the converted points. -/
structure ShapeData (F : Type) where
  shapeType : String
  data : List (F × F)
deriving DecidableEq, Repr

/-- Modelled from the spec: the class `ShapeData` is declared outside the
listed sources; the spec's shape builder makes a circular shape for the kind
`circle` and a polygon, chain or box shape for the other three kinds, so
`shape->GetType() == b2Shape::e_circle` holds exactly for the tag `circle`. -/
def ShapeData.isCircle {F : Type} (sh : ShapeData F) : Bool :=
  StrEquals sh.shapeType "circle"

/-- The arguments of one `app->physics->CreateFixtureDef` call. -/
structure FixtureRequest (F : Type) where
  shape : ShapeData F
  category : Nat
  mask : Nat
  isSensor : Bool
  density : F
  friction : F
  restitution : F
  positionOffset : F × F
deriving DecidableEq, Repr

/-- The record `FixtureData(name, fixturePtr)`; the fixture is named by its
handle. -/
structure FixtureData where
  name : String
  fixture : Nat
deriving DecidableEq, Repr

/-- The wrapper `PhysBody` held by the entity: the handle of its engine body,
the stored size and layer, the collision listener (the owning entity, recorded
by its name) and the ground slot. -/
structure PhysBody where
  body : Nat
  width_height : iPoint
  type : Int
  listener : Option String
  ground : Option FixtureData
deriving DecidableEq, Repr

/-- The physics module as seen from this function: the `CreateBody` calls and
the `b2Body::CreateFixture` calls made so far, oldest first. A body handle is
the position of its `CreateBody` call, a fixture handle the position of its
`CreateFixture` call; each fixture is stored with the body it was attached to. -/
structure Physics (F B : Type) where
  bodies : List (BodyRequest F B)
  fixtures : List (Nat × FixtureRequest F)
deriving DecidableEq, Repr

/-- The call `app->physics->CreateBody(...)`: returns the new body handle. -/
def Physics.CreateBody {F B : Type} (w : Physics F B) (req : BodyRequest F B) :
    Nat × Physics F B :=
  (w.bodies.length, { w with bodies := w.bodies ++ [req] })

/-- The call `body->CreateFixture(def)`: returns the new fixture handle. -/
def Physics.CreateFixture {F B : Type} (w : Physics F B) (body : Nat)
    (fd : FixtureRequest F) : Nat × Physics F B :=
  (w.fixtures.length, { w with fixtures := w.fixtures ++ [(body, fd)] })

/-- The members of `Character` the function reads or writes. -/
structure Character where
  name : String
  parameters : xml_node
  position : iPoint
  type : Int
  colliderOffset : iPoint
  pBody : Option PhysBody

/-- The body of the loop over the matches (source lines 175-181): the point
pushed for one match; `none` when `stoi` throws. -/
def pointOfMatch {F B : Type} (X : Externals F B) (m : MatchRes) : Option (F × F) :=
  match stoi (m.sub 1), stoi (m.sub 2) with
  | some x, some y => some (X.pixelToMeters x, X.pixelToMeters y)
  | _, _ => none

/-- The polygon/chain branch (source lines 168-182): every match of the pattern
in the `points` text, left to right, pushes the converted pair
`(PIXEL_TO_METERS(stoi(match[1])), PIXEL_TO_METERS(stoi(match[2])))`; `none`
when `stoi` throws. -/
def parsePoints {F B : Type} (X : Externals F B) (xyStr : List Char) :
    Option (List (F × F)) :=
  (regexMatches pointsRegex xyStr).mapM (pointOfMatch X)

/-- The vector `tempData` of one shape node (source lines 163-201). -/
def shapePoints {F B : Type} (X : Externals F B) (colliderGroupNode : xml_node)
    (width_height : iPoint) (elem : xml_node) : Option (List (F × F)) :=
  let shapeType := elem.name
  if StrEquals shapeType "chain" || StrEquals shapeType "polygon" then
    parsePoints X (as_string (elem.attr "points")).toList
  else if StrEquals shapeType "rectangle" then
    some [(X.pixelToMeters width_height.1, X.pixelToMeters width_height.2)]
  else if StrEquals shapeType "circle" then
    some [(as_float X (colliderGroupNode.attr "radius"), X.zero)]
  else some []

/-- The fixture request assembled for a shape node whose `tempData` is not
empty (source lines 157-158 and 207-234); `name`, `type` and `colliderOffset`
are the members of the entity the code reads. -/
def fixtureRequest {F B : Type} (X : Externals F B) (L : ColliderLayers)
    (restitution : F) (currentNode colliderGroupNode : xml_node)
    (name : String) (type : Int) (colliderOffset : iPoint)
    (elem : xml_node) (tempData : List (F × F)) : FixtureRequest F :=
  let bSensor := as_bool X (currentNode.attr "sensor")
  let density :=
    if attrPresent (currentNode.attr "density") then as_float X (currentNode.attr "density")
    else X.zero
  let shape : ShapeData F := ⟨elem.name, tempData⟩
  let fixPos : F × F :=
    if shape.isCircle then
      X.pixelToMetersVec
        (as_int X (elem.attr "x") - colliderOffset.1,
         as_int X (elem.attr "y") - colliderOffset.2)
    else (X.zero, X.zero)
  let friction :=
    if attrPresent (elem.attr "friction") then as_float X (elem.attr "friction") else X.one
  let maskFlag := SetMaskFlag L name colliderGroupNode elem
  { shape := shape
    category := (type % 65536).toNat
    mask := maskFlag
    isSensor := bSensor
    density := density
    friction := friction
    restitution := restitution
    positionOffset := fixPos }

/-- One round of the inner loop over `colliderGroupNode.children()` (source
lines 155-245). `none` is abnormal termination: an exception out of `stoi`, or
the dereference of a null `pBody`. -/
def elemStep {F B : Type} (X : Externals F B) (L : ColliderLayers) (restitution : F)
    (currentNode colliderGroupNode : xml_node) (width_height : iPoint)
    (st : Character × Physics F B) (elem : XmlTree) : Option (Character × Physics F B) :=
  match shapePoints X colliderGroupNode width_height (some elem) with
  | none => none
  | some tempData =>
    if tempData.isEmpty then some st
    else
      let fixtureDef :=
        fixtureRequest X L restitution currentNode colliderGroupNode
          st.1.name st.1.type st.1.colliderOffset (some elem) tempData
      match st.1.pBody with
      | none => none
      | some pBody =>
        let created := st.2.CreateFixture pBody.body fixtureDef
        if StrEquals (as_string (xml_node.attr (some elem) "name")) "ground" then
          some ({ st.1 with pBody := some { pBody with
                    ground := some ⟨as_string (xml_node.attr (some elem) "name"), created.1⟩ } },
                created.2)
        else some (st.1, created.2)

/-- The local `iPoint width_height` of a collider group (source lines 123-126):
its `width` and `height` attributes. -/
def groupSize {F B : Type} (X : Externals F B) (colliderGroupNode : xml_node) : iPoint :=
  (as_int X (colliderGroupNode.attr "width"), as_int X (colliderGroupNode.attr "height"))

/-- The value assigned to the member `colliderOffset` (source lines 130-133):
the `x`/`y` attributes of the first child of the collider group. -/
def groupOffset {F B : Type} (X : Externals F B) (colliderGroupNode : xml_node) : iPoint :=
  (as_int X (colliderGroupNode.first_child.attr "x"),
   as_int X (colliderGroupNode.first_child.attr "y"))

/-- The arguments of the `CreateBody` call made for a collider group (source
lines 135-143), `position + colliderOffset` being the sum of two `iPoint`s. -/
def bodyRequest {F B : Type} (X : Externals F B) (gravity : F) (position colliderOffset : iPoint)
    (colliderGroupNode : xml_node) : BodyRequest F B :=
  { position := (position.1 + colliderOffset.1, position.2 + colliderOffset.2)
    bodyType := X.bodyTypeStrToEnum (as_string (colliderGroupNode.attr "class"))
    angle := X.zero
    damping := (X.zero, X.hundredth)
    gravityScale := gravity }

/-- One round of the loop over `currentNode.children("collidergroup")` (source
lines 121-246): the body is created when the entity has none, then every child
of the group is compiled. -/
def groupStep {F B : Type} (X : Externals F B) (L : ColliderLayers)
    (gravity restitution : F) (currentNode : xml_node)
    (st : Character × Physics F B) (colliderGroupNode : XmlTree) :
    Option (Character × Physics F B) :=
  let group : xml_node := some colliderGroupNode
  let width_height : iPoint := groupSize X group
  let st1 : Character × Physics F B :=
    match st.1.pBody with
    | some _ => st
    | none =>
      let colliderOffset : iPoint := groupOffset X group
      let created := st.2.CreateBody (bodyRequest X gravity st.1.position colliderOffset group)
      let pBody : PhysBody :=
        { body := created.1, width_height := width_height, type := st.1.type,
          listener := some st.1.name, ground := none }
      ({ st.1 with colliderOffset := colliderOffset, pBody := some pBody }, created.2)
  group.children.foldlM (elemStep X L restitution currentNode group width_height) st1

/-- The local `gravity` (source line 95): the `gravityscale` attribute of the
physics node, 1.0 when absent. -/
def gravityOf {F B : Type} (X : Externals F B) (physics : xml_node) : F :=
  if attrPresent (physics.attr "gravityscale") then as_float X (physics.attr "gravityscale")
  else X.one

/-- The local `restitution` (source line 96): the `restitution` attribute of
the physics node, 1.0 when absent. -/
def restitutionOf {F B : Type} (X : Externals F B) (physics : xml_node) : F :=
  if attrPresent (physics.attr "restitution") then as_float X (physics.attr "restitution")
  else X.one

/-- The sibling scan (source lines 99-111): starting at the first child of
`animationdata`, the first node that has a `collidergroup` child; the null
handle when there is none. The parent of the `physics` child is the
`parameters` node itself. -/
def colliderAnimation (parameters : xml_node) : xml_node :=
  (parameters.child "animationdata").children.find?
    (fun n => !(xml_node.child (some n) "collidergroup").empty)

/-- The function `Character::CreatePhysBody`, run on the entity `c` against the
physics module `w`. -/
def CreatePhysBody {F B : Type} (X : Externals F B) (L : ColliderLayers)
    (c : Character) (w : Physics F B) : Option (Character × Physics F B) :=
  let physics := c.parameters.child "physics"
  if physics.empty then some (c, w)
  else
    let c1 : Character := { c with type := as_int X (physics.attr "colliderlayers") }
    let gravity := gravityOf X physics
    let restitution := restitutionOf X physics
    if (c.parameters.child "animationdata").first_child.empty then some (c1, w)
    else
      match colliderAnimation c.parameters with
      | none => some (c1, w)
      | some node =>
        (xml_node.children_named (some node) "collidergroup").foldlM
          (groupStep X L gravity restitution (some node)) (c1, w)

/-! ## Written point lists

The text of a `points` attribute as an author writes it, used to state what the
parser recovers from it. -/

/-- A coordinate as written: an optional minus sign, the digits of the integer
part, and optionally a decimal fraction (the digits after the dot). -/
structure Coord where
  neg : Bool
  int : List Char
  frac : Option (List Char)
deriving DecidableEq, Repr

/-- The sign and integer digits of a written coordinate. -/
def Coord.intText (c : Coord) : List Char :=
  (if c.neg then ['-'] else []) ++ c.int

/-- The dot and fraction digits of a written coordinate, if any. -/
def Coord.fracText (c : Coord) : List Char :=
  match c.frac with
  | none => []
  | some f => '.' :: f

/-- The text of a written coordinate. -/
def Coord.text (c : Coord) : List Char := c.intText ++ c.fracText

/-- A written coordinate is well formed when its integer part has one to three
decimal digits and its fraction, when present, has at least one digit and only
digits. -/
def Coord.wf (c : Coord) : Bool :=
  decide (1 ≤ c.int.length) && decide (c.int.length ≤ 3) && c.int.all Char.isDigit &&
    (match c.frac with
     | none => true
     | some f => !f.isEmpty && f.all Char.isDigit)

/-- The integer a written coordinate denotes once its fraction is dropped. -/
def Coord.value (c : Coord) : Int :=
  if c.neg then -(digitsValue c.int : Int) else (digitsValue c.int : Int)

/-- The written coordinate with its fraction erased. -/
def Coord.truncate (c : Coord) : Coord := { c with frac := none }

/-- The text "x,y" of a written pair. -/
def pairText (p : Coord × Coord) : List Char := p.1.text ++ ',' :: p.2.text

/-- The pairs that follow the first one, each preceded by a single space. -/
def moreText : List (Coord × Coord) → List Char
  | [] => []
  | p :: ps => ' ' :: (pairText p ++ moreText ps)

/-- The text of a list of written pairs separated by single spaces. -/
def pointsText : List (Coord × Coord) → List Char
  | [] => []
  | p :: ps => pairText p ++ moreText ps

/-- The pair of physics coordinates a written pair stands for. -/
def convertPair {F B : Type} (X : Externals F B) (p : Coord × Coord) : F × F :=
  (X.pixelToMeters p.1.value, X.pixelToMeters p.2.value)

/-- Shorthand for a written integer coordinate without sign or fraction. -/
def Coord.ofDigits (s : String) : Coord := ⟨false, s.toList, none⟩

/-! ## A sample instantiation of the collaborators -/

/-- A concrete choice of the collaborators, used to evaluate the definitions on
examples: lengths are integers counting hundredths of a metre, with 50 pixels
to the metre (one pixel is two hundredths); numeric attribute text is read as a
decimal integer; the body type is kept as its name. -/
def sampleExternals : Externals Int String where
  strToInt := fun s => (stoi s.toList).getD 0
  strToFloat := fun s => 100 * (stoi s.toList).getD 0
  strToBool := fun s =>
    match s.toList with
    | c :: _ => c = '1' || c = 't' || c = 'T' || c = 'y' || c = 'Y'
    | [] => false
  pixelToMeters := fun n => 2 * n
  pixelToMetersVec := fun p => (2 * p.1, 2 * p.2)
  bodyTypeStrToEnum := fun s => s
  zero := 0
  one := 100
  hundredth := 1

/-- A sample layer table with one bit per category. -/
def sampleLayers : ColliderLayers where
  ENEMIES := 0x0002
  TRIGGERS := 0x0004
  CHECKPOINTS := 0x0008
  PLATFORMS := 0x0010
  ITEMS := 0x0020

/-! ## Auxiliary predicates used in the proofs -/

/-- Whether the first character of `s` exists and satisfies `p`. -/
def leads (p : Char → Bool) (s : List Char) : Bool :=
  match s with
  | [] => false
  | c :: _ => p c

/-! ## The outcome of a run, described node by node

Pure descriptions of what the loops of `CreatePhysBody` do, used to state the
properties of a whole run. -/

/-- Whether a shape node gets past the `tempData.empty()` check, that is,
whether a fixture is requested for it. -/
def producesFixture {F B : Type} (X : Externals F B) (colliderGroupNode : xml_node)
    (width_height : iPoint) (elem : XmlTree) : Bool :=
  match shapePoints X colliderGroupNode width_height (some elem) with
  | some tempData => !tempData.isEmpty
  | none => false

/-- The fixture request built for a shape node that produces a fixture. -/
def nodeRequest {F B : Type} (X : Externals F B) (L : ColliderLayers) (restitution : F)
    (currentNode colliderGroupNode : xml_node) (width_height : iPoint)
    (name : String) (type : Int) (colliderOffset : iPoint) (elem : XmlTree) :
    FixtureRequest F :=
  fixtureRequest X L restitution currentNode colliderGroupNode name type colliderOffset
    (some elem) ((shapePoints X colliderGroupNode width_height (some elem)).getD [])

/-- Whether the `name` attribute of a shape node is "ground". -/
def isGroundNode (elem : XmlTree) : Bool :=
  StrEquals (as_string (xml_node.attr (some elem) "name")) "ground"

/-- Position of the last node named "ground" in a list of shape nodes. -/
def lastGroundIdx : List XmlTree → Option Nat
  | [] => none
  | e :: t =>
    match lastGroundIdx t with
    | some i => some (i + 1)
    | none => if isGroundNode e then some 0 else none

/-- The ground slot after fixtures were created, from handle `base` on, for the
nodes of `nodes` in order: the fixture of the last node named "ground", or the
previous content `slot` when there is none. -/
def groundFrom (nodes : List XmlTree) (base : Nat) (slot : Option FixtureData) :
    Option FixtureData :=
  match lastGroundIdx nodes with
  | some i => some ⟨"ground", base + i⟩
  | none => slot

/-- The collider groups the outer loop visits: the `collidergroup` children of
the first child of `animationdata` that has one, provided the `physics` child
exists. -/
def compiledGroups (parameters : xml_node) : List XmlTree :=
  if (parameters.child "physics").empty then []
  else xml_node.children_named (colliderAnimation parameters) "collidergroup"

/-- The shape nodes of a collider group that produce a fixture, in order. -/
def producingNodes {F B : Type} (X : Externals F B) (colliderGroupNode : XmlTree) :
    List XmlTree :=
  colliderGroupNode.children.filter
    (producesFixture X (some colliderGroupNode) (groupSize X (some colliderGroupNode)))

/-- The fixture requests of one collider group, in the order of its shape
nodes. -/
def groupRequests {F B : Type} (X : Externals F B) (L : ColliderLayers) (restitution : F)
    (currentNode : xml_node) (name : String) (type : Int) (colliderOffset : iPoint)
    (colliderGroupNode : XmlTree) : List (FixtureRequest F) :=
  (producingNodes X colliderGroupNode).map
    (nodeRequest X L restitution currentNode (some colliderGroupNode)
      (groupSize X (some colliderGroupNode)) name type colliderOffset)

/-- The first collider group the outer loop visits (null when there is none). -/
def firstGroup (parameters : xml_node) : xml_node := (compiledGroups parameters).head?

/-- The value the run assigns to the member `type` (source line 93). -/
def runType {F B : Type} (X : Externals F B) (parameters : xml_node) : Int :=
  as_int X ((parameters.child "physics").attr "colliderlayers")

/-- The value a run on a bodiless entity assigns to `colliderOffset`. -/
def runOffset {F B : Type} (X : Externals F B) (parameters : xml_node) : iPoint :=
  groupOffset X (firstGroup parameters)

/-- The shape nodes for which a run requests a fixture, in the order of the
requests. -/
def runNodes {F B : Type} (X : Externals F B) (parameters : xml_node) : List XmlTree :=
  (compiledGroups parameters).flatMap (producingNodes X)

/-- The fixture requests made by a run on a bodiless entity called `name`, in
order. -/
def runRequests {F B : Type} (X : Externals F B) (L : ColliderLayers) (name : String)
    (parameters : xml_node) : List (FixtureRequest F) :=
  (compiledGroups parameters).flatMap
    (groupRequests X L (restitutionOf X (parameters.child "physics"))
      (colliderAnimation parameters) name (runType X parameters) (runOffset X parameters))

/-! ## Sample descriptors -/

/-- An entity descriptor with a `physics` section and an `animationdata`
section whose single `animation` child carries the given attributes and
collider groups. -/
def sampleParameters (physicsAttrs animationAttrs : List (String × String))
    (groups : List XmlTree) : xml_node :=
  some (.mk "entity" []
    [.mk "physics" physicsAttrs [],
     .mk "animationdata" [] [.mk "animation" animationAttrs groups]])

/-- A bodiless entity spawned at (100, 200) with the given name and descriptor. -/
def sampleCharacter (name : String) (parameters : xml_node) : Character :=
  { name := name, parameters := parameters, position := (100, 200), type := 0,
    colliderOffset := (0, 0), pBody := none }

/-- A physics module in which nothing has been created yet. -/
def emptyPhysics : Physics Int String := ⟨[], []⟩

/-- A descriptor with three collider groups: a rectangle, a circle and a
triangle next to a node of unknown kind. -/
def threeGroups : xml_node :=
  sampleParameters [("gravityscale", "2")] []
    [.mk "collidergroup" [("class", "dynamic"), ("width", "30"), ("height", "40")]
        [.mk "rectangle" [("x", "5"), ("y", "7")] []],
     .mk "collidergroup" [("radius", "12")] [.mk "circle" [("x", "15"), ("y", "25")] []],
     .mk "collidergroup" []
        [.mk "polygon" [("points", "0,0 10,0 5,8")] [], .mk "ellipse" [] []]]

/-- A descriptor whose only node named "ground" is a polygon without points,
next to a rectangle. -/
def skippedGround : xml_node :=
  sampleParameters [] []
    [.mk "collidergroup" [("width", "30"), ("height", "40")]
        [.mk "polygon" [("name", "ground"), ("points", "")] [],
         .mk "rectangle" [("name", "torso")] []]]

/-- A descriptor in which the shape node carries its own `sensor` and `density`
attributes while the enclosing `animation` node carries none. -/
def sensorOnShape : xml_node :=
  sampleParameters [("restitution", "0")] []
    [.mk "collidergroup" [("width", "30"), ("height", "40")]
        [.mk "rectangle" [("sensor", "true"), ("density", "2"), ("friction", "3")] []]]

/-- A state in which the entity owns body 0 and recorded the offset (5, 5). -/
def sampleBodyState : Character × Physics Int String :=
  ({ name := "player", parameters := none, position := (100, 200), type := 1,
     colliderOffset := (5, 5),
     pBody := some { body := 0, width_height := (30, 40), type := 1,
                     listener := some "player", ground := none } },
   ⟨[⟨(105, 205), "dynamic", 0, (0, 1), 100⟩], []⟩)

/-- A descriptor with two producing nodes named "ground" around an unnamed
one. -/
def twoGrounds : xml_node :=
  sampleParameters [] []
    [.mk "collidergroup" [("width", "30"), ("height", "40")]
        [.mk "rectangle" [("name", "ground")] [], .mk "rectangle" [] [],
         .mk "rectangle" [("name", "ground")] []]]

/-- A descriptor whose collider group holds a circle and no `radius` attribute
anywhere. -/
def circleWithoutRadius : xml_node :=
  sampleParameters [] []
    [.mk "collidergroup" [] [.mk "circle" [("x", "15"), ("y", "25")] []]]

/-- A descriptor whose first collider group starts with a node of unknown kind
placed at (5, 7), followed by a circle at (15, 25). -/
def badFirstChild : xml_node :=
  sampleParameters [] []
    [.mk "collidergroup" [("radius", "12")]
      [.mk "ellipse" [("x", "5"), ("y", "7")] [], .mk "circle" [("x", "15"), ("y", "25")] []]]

/-- The same descriptor without the node of unknown kind. -/
def badFirstChildRemoved : xml_node :=
  sampleParameters [] []
    [.mk "collidergroup" [("radius", "12")] [.mk "circle" [("x", "15"), ("y", "25")] []]]

/-- A descriptor without a `physics` section. -/
def noPhysics : xml_node :=
  some (.mk "entity" []
    [.mk "animationdata" []
      [.mk "animation" []
        [.mk "collidergroup" [("width", "30"), ("height", "40")] [.mk "rectangle" [] []]]]])

/-- A descriptor whose `animationdata` section has two `animation` children,
each with one collider group holding one rectangle. -/
def twoAnimations : xml_node :=
  some (.mk "entity" []
    [.mk "physics" [] [],
     .mk "animationdata" []
      [.mk "animation" [("name", "idle")]
        [.mk "collidergroup" [("width", "30"), ("height", "40")] [.mk "rectangle" [] []]],
       .mk "animation" [("name", "run")]
        [.mk "collidergroup" [("width", "10"), ("height", "20")] [.mk "rectangle" [] []]]]])

/-- All the collider groups of a descriptor: the `collidergroup` children of
every child of `animationdata`. -/
def allColliderGroups (parameters : xml_node) : List XmlTree :=
  (parameters.child "animationdata").children.flatMap
    (fun n => xml_node.children_named (some n) "collidergroup")

/-! ## Tile sets (Game/Source/Map.cpp) -/

/-- The members of `TileSet` that `Map.cpp` fills in `LoadTileSet`; the texture
is named by a handle. -/
structure TileSet where
  name : String
  firstgid : Int
  margin : Int
  spacing : Int
  tileWidth : Int
  tileHeight : Int
  columns : Int
  tilecount : Int
  texture : Nat
deriving DecidableEq, Repr

/-- The struct `SDL_Rect`. -/
structure SDL_Rect where
  x : Int
  y : Int
  w : Int
  h : Int
deriving DecidableEq, Repr

/-- The function `TileSet::GetTileRect` (source lines 86-98). The operators `%`
and `/` of C++ truncate towards zero; `none` stands for the division by zero
when `columns` is 0. -/
def TileSet.GetTileRect (t : TileSet) (gid : Int) : Option SDL_Rect :=
  let relativeIndex := gid - t.firstgid
  if t.columns = 0 then none
  else
    some
      { w := t.tileWidth
        h := t.tileHeight
        x := t.margin + (t.tileWidth + t.spacing) * (Int.tmod relativeIndex t.columns)
        y := t.margin + (t.tileWidth + t.spacing) * (Int.tdiv relativeIndex t.columns) }

/-- The value of an `int` expression whose exact result is `n`: the 32-bit
two's-complement wrap. Signed overflow is undefined in C++; the wrap is what
the compiled program does. -/
def toInt32 (n : Int) : Int := (n + 2147483648) % 4294967296 - 2147483648

/-- The function `Map::GetTilesetFromTileId` (source lines 102-110) over the
vector `mapData.tilesets`: the first tile set with
`gid < firstgid + tilecount`, the sum being an `int`, or the null pointer. -/
def GetTilesetFromTileId (tilesets : List TileSet) (gid : Int) : Option TileSet :=
  tilesets.find? (fun tileset => decide (gid < toInt32 (tileset.firstgid + tileset.tilecount)))

/-- The same search with the exact sum `firstgid + tilecount`, used to state
what the lookup does when no sum overflows. -/
def firstBelowEnd (tilesets : List TileSet) (gid : Int) : Option TileSet :=
  tilesets.find? (fun tileset => decide (gid < tileset.firstgid + tileset.tilecount))

/-- A tile set whose `firstgid` is an `int` and whose range end
`firstgid + tilecount` does not exceed `INT_MAX`. -/
def TileSet.fits (t : TileSet) : Bool :=
  decide (-2147483648 ≤ t.firstgid) && decide (t.firstgid + t.tilecount ≤ 2147483647)

/-- A tile set made of the single gid `INT_MAX`. -/
def lastGidTiles : TileSet :=
  { name := "edge", firstgid := 2147483647, margin := 0, spacing := 0, tileWidth := 32,
    tileHeight := 32, columns := 1, tilecount := 1, texture := 0 }

/-- The gid ranges of consecutive tile sets are contiguous: each one starts
where the previous one ends. -/
def contiguous : List TileSet → Bool
  | [] => true
  | [_] => true
  | a :: b :: r => decide (b.firstgid = a.firstgid + a.tilecount) && contiguous (b :: r)

/-- A sample tile set of 32x16 tiles in four columns, covering the gids 1..8. -/
def groundTiles : TileSet :=
  { name := "ground", firstgid := 1, margin := 0, spacing := 0, tileWidth := 32,
    tileHeight := 16, columns := 4, tilecount := 8, texture := 0 }

/-- Two sample tile sets covering the gids 1..8 and 9..12. -/
def sampleTilesets : List TileSet :=
  [groundTiles,
   { name := "props", firstgid := 9, margin := 1, spacing := 2, tileWidth := 32,
     tileHeight := 32, columns := 2, tilecount := 4, texture := 1 }]

/-! ## Properties of `SetMaskFlag` -/

theorem toUInt16_of_lt {n : Nat} (h : n < 65536) : toUInt16 n = n :=
  Nat.mod_eq_of_lt h

theorem lor_lt_65536 {a b : Nat} (ha : a < 65536) (hb : b < 65536) : a ||| b < 65536 :=
  Nat.or_lt_two_pow (n := 16) ha hb

/-- C1. For the entity name "player", a collider group whose `name` attribute
is "CharacterSensor" yields the mask `ENEMIES | TRIGGERS | CHECKPOINTS` and one
whose `name` attribute is "Terrain" yields `PLATFORMS | ITEMS`, whatever the
shape node is: the result is the 16-bit cast of the union, which is the union
itself as soon as the layer values fit in 16 bits. -/
theorem SetMaskFlag_player_special (L : ColliderLayers) (colliderGroupNode colliderNode : xml_node) :
    (as_string (colliderGroupNode.attr "name") = "CharacterSensor" →
      SetMaskFlag L "player" colliderGroupNode colliderNode
          = toUInt16 (L.ENEMIES ||| L.TRIGGERS ||| L.CHECKPOINTS) ∧
      (L.ENEMIES < 65536 → L.TRIGGERS < 65536 → L.CHECKPOINTS < 65536 →
        SetMaskFlag L "player" colliderGroupNode colliderNode
          = L.ENEMIES ||| L.TRIGGERS ||| L.CHECKPOINTS)) ∧
    (as_string (colliderGroupNode.attr "name") = "Terrain" →
      SetMaskFlag L "player" colliderGroupNode colliderNode
          = toUInt16 (L.PLATFORMS ||| L.ITEMS) ∧
      (L.PLATFORMS < 65536 → L.ITEMS < 65536 →
        SetMaskFlag L "player" colliderGroupNode colliderNode = L.PLATFORMS ||| L.ITEMS)) := by
  constructor
  · intro h
    have h1 : SetMaskFlag L "player" colliderGroupNode colliderNode
        = toUInt16 (L.ENEMIES ||| L.TRIGGERS ||| L.CHECKPOINTS) := by
      simp [SetMaskFlag, StrEquals, h]
    exact ⟨h1, fun he ht hc => h1.trans (toUInt16_of_lt (lor_lt_65536 (lor_lt_65536 he ht) hc))⟩
  · intro h
    have h1 : SetMaskFlag L "player" colliderGroupNode colliderNode
        = toUInt16 (L.PLATFORMS ||| L.ITEMS) := by
      simp [SetMaskFlag, StrEquals, h]
    exact ⟨h1, fun hp hi => h1.trans (toUInt16_of_lt (lor_lt_65536 hp hi))⟩

/-- C1, evaluated: the player's "CharacterSensor" group gets 0x000E and its
"Terrain" group 0x0030 under the sample layer table. -/
theorem SetMaskFlag_player_special_witness :
    SetMaskFlag sampleLayers "player"
        (some (.mk "collidergroup" [("name", "CharacterSensor")] [])) none = 0x000E ∧
    SetMaskFlag sampleLayers "player"
        (some (.mk "collidergroup" [("name", "Terrain")] []))
        (some (.mk "circle" [] [])) = 0x0030 :=
  ⟨((SetMaskFlag_player_special sampleLayers
        (some (.mk "collidergroup" [("name", "CharacterSensor")] [])) none).1 (by decide)).2
      (by decide) (by decide) (by decide),
   ((SetMaskFlag_player_special sampleLayers
        (some (.mk "collidergroup" [("name", "Terrain")] []))
        (some (.mk "circle" [] []))).2 (by decide)).2 (by decide) (by decide)⟩

/-- C2. Default rule: for every entity name other than "player" (and every
group), and for "player" with every group whose `name` attribute is neither
"CharacterSensor" nor "Terrain", the mask is exactly 0x0001 (TERRAIN only). -/
theorem SetMaskFlag_default (L : ColliderLayers) (name : String)
    (colliderGroupNode colliderNode : xml_node)
    (h : name ≠ "player" ∨
      (as_string (colliderGroupNode.attr "name") ≠ "CharacterSensor" ∧
        as_string (colliderGroupNode.attr "name") ≠ "Terrain")) :
    SetMaskFlag L name colliderGroupNode colliderNode = 0x0001 := by
  rcases h with h | ⟨h1, h2⟩
  · simp [SetMaskFlag, StrEquals, h]
  · simp [SetMaskFlag, StrEquals, h1, h2]

/-- C2, evaluated on an enemy inside a "CharacterSensor" group and on the
player inside a group with another name. -/
theorem SetMaskFlag_default_witness :
    SetMaskFlag sampleLayers "enemy"
        (some (.mk "collidergroup" [("name", "CharacterSensor")] [])) none = 0x0001 ∧
    SetMaskFlag sampleLayers "player"
        (some (.mk "collidergroup" [("name", "Anything else")] [])) none = 0x0001 :=
  ⟨SetMaskFlag_default sampleLayers "enemy" _ none (Or.inl (by decide)),
   SetMaskFlag_default sampleLayers "player" _ none (Or.inr ⟨by decide, by decide⟩)⟩

/-! ## The head of a backtracking search -/

theorem head?_flatMap_of {α β : Type} {l : List α} {f : α → List β} {x : α} {y : β}
    (hl : l.head? = some x) (hf : (f x).head? = some y) : (l.flatMap f).head? = some y := by
  cases l with
  | nil => simp at hl
  | cons a t =>
    simp at hl; subst hl
    cases h : f a with
    | nil => simp [h] at hf
    | cons b u => simp [h] at hf; simp [List.flatMap_cons, h, hf]

theorem head?_map_of {α β : Type} {l : List α} {f : α → β} {x : α}
    (hl : l.head? = some x) : (l.map f).head? = some (f x) := by
  cases l with
  | nil => simp at hl
  | cons a t => simp at hl; simp [hl]

theorem head?_append_of {α : Type} {l l2 : List α} {x : α}
    (hl : l.head? = some x) : (l ++ l2).head? = some x := by
  cases l with
  | nil => simp at hl
  | cons a t => simp at hl; simp [hl]

theorem run_seq_head {a b : Re} {s : List Char} {r r2 : MatchRes}
    (ha : (a.run s).head? = some r) (hb : (b.run r.rest).head? = some r2) :
    ((Re.seq a b).run s).head? = some (r.andThen r2) := by
  simp only [Re.run]
  exact head?_flatMap_of ha (head?_map_of hb)

theorem run_group_head {a : Re} {i : Nat} {s : List Char} {r : MatchRes}
    (ha : (a.run s).head? = some r) :
    ((Re.group i a).run s).head? = some ⟨r.consumed, r.rest, r.caps ++ [(i, r.consumed)]⟩ := by
  simp only [Re.run]
  exact head?_map_of ha

theorem atMost_stop {body : List Char → List MatchRes} {n : Nat} {s : List Char}
    (hb : body s = []) : (atMost body n s).head? = some (MatchRes.eps s) := by
  cases n with
  | zero => simp [atMost]
  | succ n => simp [atMost, hb]

theorem atMost_step {body : List Char → List MatchRes} {n : Nat} {s : List Char}
    {r r2 : MatchRes} (hb : (body s).head? = some r) (hlt : r.rest.length < s.length)
    (hr : (atMost body n r.rest).head? = some r2) :
    (atMost body (n + 1) s).head? = some (r.andThen r2) := by
  simp only [atMost]
  apply head?_append_of
  have hf : ((body s).filter (fun r => decide (r.rest.length < s.length))).head? = some r := by
    cases h : body s with
    | nil => simp [h] at hb
    | cons a t => simp [h] at hb; subst hb; simp [List.filter_cons, hlt]
  exact head?_flatMap_of (f := fun r => List.map r.andThen (atMost body n r.rest)) hf
    (head?_map_of hr)

theorem run_digit_of_not_leads {s : List Char} (h : leads Char.isDigit s = false) :
    Re.digit.run s = [] := by
  cases s with
  | nil => simp [Re.run]
  | cons c t => simp [leads] at h; simp [Re.run, h]

theorem run_chr_of_not_leads {c : Char} {s : List Char}
    (h : leads (fun x => decide (x = c)) s = false) : (Re.chr c).run s = [] := by
  cases s with
  | nil => simp [Re.run]
  | cons x t => simp [leads] at h; simp [Re.run, h]

theorem atMost_digits (ds : List Char) :
    ∀ (n : Nat) (rest : List Char), ds.all Char.isDigit = true → ds.length ≤ n →
      leads Char.isDigit rest = false →
      (atMost Re.digit.run n (ds ++ rest)).head? = some ⟨ds, rest, []⟩ := by
  induction ds with
  | nil =>
    intro n rest _ _ hrest
    simpa [MatchRes.eps] using atMost_stop (n := n) (run_digit_of_not_leads hrest)
  | cons d ds ih =>
    intro n rest hd hn hrest
    cases n with
    | zero => simp at hn
    | succ n =>
      simp only [List.all_cons, Bool.and_eq_true] at hd
      have h1 : (Re.digit.run (d :: ds ++ rest)).head? = some ⟨[d], ds ++ rest, []⟩ := by
        simp [Re.run, hd.1]
      have h2 := ih n rest hd.2 (by simpa using hn) hrest
      have := atMost_step (n := n) h1 (by simp) h2
      simpa [MatchRes.andThen] using this

/-- The quantifier `\d{1,3}` on one to three digits followed by a non-digit. -/
theorem run_digits13 {ds rest : List Char} (hd : ds.all Char.isDigit = true)
    (h1 : 1 ≤ ds.length) (h3 : ds.length ≤ 3) (hrest : leads Char.isDigit rest = false) :
    ((Re.rep .digit 1 (some 3)).run (ds ++ rest)).head? = some ⟨ds, rest, []⟩ := by
  cases ds with
  | nil => simp at h1
  | cons d ds =>
    simp only [List.all_cons, Bool.and_eq_true] at hd
    have hh : (Re.digit.run (d :: ds ++ rest)).head? = some ⟨[d], ds ++ rest, []⟩ := by
      simp [Re.run, hd.1]
    have h2 := atMost_digits ds 2 rest hd.2 (by simpa using h3) hrest
    simp only [Re.run, atLeast]
    have := head?_flatMap_of (f := fun r => List.map r.andThen (atMost Re.digit.run (3 - 1) r.rest))
      hh (head?_map_of h2)
    simpa [MatchRes.andThen] using this

/-- The quantifier `\d+` on a non-empty run of digits followed by a non-digit. -/
theorem run_digitsPlus {ds rest : List Char} (hd : ds.all Char.isDigit = true)
    (h1 : 1 ≤ ds.length) (hrest : leads Char.isDigit rest = false) :
    ((Re.rep .digit 1 none).run (ds ++ rest)).head? = some ⟨ds, rest, []⟩ := by
  cases ds with
  | nil => simp at h1
  | cons d ds =>
    simp only [List.all_cons, Bool.and_eq_true] at hd
    have hh : (Re.digit.run (d :: ds ++ rest)).head? = some ⟨[d], ds ++ rest, []⟩ := by
      simp [Re.run, hd.1]
    have h2 := atMost_digits ds (d :: ds ++ rest).length rest hd.2 (by simp; omega) hrest
    simp only [Re.run, atLeast]
    have := head?_flatMap_of
      (f := fun r => List.map r.andThen (atMost Re.digit.run (d :: ds ++ rest).length r.rest))
      hh (head?_map_of h2)
    simpa [MatchRes.andThen] using this

/-! ## The pattern on a well-formed written pair -/

theorem Coord.wf_iff (c : Coord) :
    c.wf = true ↔ (1 ≤ c.int.length ∧ c.int.length ≤ 3 ∧ c.int.all Char.isDigit = true ∧
      ∀ f, c.frac = some f → (1 ≤ f.length ∧ f.all Char.isDigit = true)) := by
  rcases c with ⟨neg, int, frac⟩
  cases frac with
  | none => simp [Coord.wf, and_assoc]
  | some f =>
    cases f with
    | nil => simp [Coord.wf]
    | cons a t => simp [Coord.wf, and_assoc]

theorem isDigit_ne_minus {d : Char} (h : d.isDigit = true) : d ≠ '-' := by
  rintro rfl; simp [Char.isDigit] at h

/-- The optional sign `-?` takes the minus sign when there is one. -/
theorem run_optMinus_neg (t : List Char) :
    ((Re.rep (.chr '-') 0 (some 1)).run ('-' :: t)).head? = some ⟨['-'], t, []⟩ := by
  simp [Re.run, atLeast, atMost, MatchRes.andThen, MatchRes.eps]

/-- The optional sign `-?` matches empty in front of a digit. -/
theorem run_optMinus_digit {d : Char} (t : List Char) (h : d.isDigit = true) :
    ((Re.rep (.chr '-') 0 (some 1)).run (d :: t)).head? = some ⟨[], d :: t, []⟩ := by
  simp [Re.run, atLeast, atMost, MatchRes.eps, isDigit_ne_minus h]

/-- The integer part `-?\d{1,3}` takes the sign and all the digits of a
well-formed coordinate. -/
theorem run_intPart (c : Coord) (hc : c.wf = true) (rest : List Char)
    (hrest : leads Char.isDigit rest = false) :
    (intPart.run (c.intText ++ rest)).head? = some ⟨c.intText, rest, []⟩ := by
  obtain ⟨h1, h3, hd, _⟩ := (Coord.wf_iff c).1 hc
  have hdig := run_digits13 hd h1 h3 hrest
  unfold intPart
  cases hneg : c.neg with
  | true =>
    have := run_seq_head (a := .rep (.chr '-') 0 (some 1)) (b := .rep .digit 1 (some 3))
      (run_optMinus_neg (c.int ++ rest)) hdig
    simpa [Coord.intText, hneg, MatchRes.andThen] using this
  | false =>
    cases hint : c.int with
    | nil => simp [hint] at h1
    | cons d ds =>
      have hd0 : d.isDigit = true := by
        rw [hint] at hd; simp only [List.all_cons, Bool.and_eq_true] at hd; exact hd.1
      have h0 := run_optMinus_digit (ds ++ rest) hd0
      rw [hint] at hdig
      have := run_seq_head (a := .rep (.chr '-') 0 (some 1)) (b := .rep .digit 1 (some 3))
        h0 hdig
      simpa [Coord.intText, hneg, hint, MatchRes.andThen] using this

/-- One fraction `\.\d+` on a dot and digits followed by a non-digit. -/
theorem run_oneFrac {f rest : List Char} (hf : f.all Char.isDigit = true) (h1 : 1 ≤ f.length)
    (hrest : leads Char.isDigit rest = false) :
    ((Re.seq (.chr '.') (.rep .digit 1 none)).run ('.' :: (f ++ rest))).head?
      = some ⟨'.' :: f, rest, []⟩ := by
  have h0 : ((Re.chr '.').run ('.' :: (f ++ rest))).head? = some ⟨['.'], f ++ rest, []⟩ := by
    simp [Re.run]
  have := run_seq_head h0 (run_digitsPlus hf h1 hrest)
  simpa [MatchRes.andThen] using this

/-- The fraction swallower `(?:\.\d+)*` takes the fraction of a well-formed
coordinate, if there is one, and stops in front of anything that is neither a
dot nor a digit. -/
theorem run_fracPart (c : Coord) (hc : c.wf = true) (rest : List Char)
    (hdig : leads Char.isDigit rest = false)
    (hdot : leads (fun x => decide (x = '.')) rest = false) :
    (fracPart.run (c.fracText ++ rest)).head? = some ⟨c.fracText, rest, []⟩ := by
  obtain ⟨_, _, _, hfrac⟩ := (Coord.wf_iff c).1 hc
  have hstop : ∀ n, (atMost (Re.seq (.chr '.') (.rep .digit 1 none)).run n rest).head?
      = some (MatchRes.eps rest) := by
    intro n
    apply atMost_stop
    have h0 := run_chr_of_not_leads hdot
    simp only [Re.run] at h0 ⊢
    rw [h0]; rfl
  unfold fracPart
  cases hf : c.frac with
  | none =>
    simp only [Re.run, atLeast, Coord.fracText, hf, List.nil_append]
    simpa [MatchRes.eps] using hstop rest.length
  | some f =>
    obtain ⟨hf1, hfd⟩ := hfrac f hf
    simp only [Re.run, atLeast, Coord.fracText, hf, List.cons_append, List.length_cons]
    have := atMost_step (n := (f ++ rest).length) (run_oneFrac hfd hf1 hdig) (by simp; omega)
      (hstop (f ++ rest).length)
    simpa [MatchRes.andThen, MatchRes.eps] using this

theorem leads_digit_fracText_append (c : Coord) (t : List Char)
    (ht : leads Char.isDigit t = false) : leads Char.isDigit (c.fracText ++ t) = false := by
  cases hf : c.frac with
  | none => simpa [Coord.fracText, hf] using ht
  | some f => simp [Coord.fracText, hf, leads, Char.isDigit]

/-- The whole pattern, tried at the start of a well-formed written pair that is
followed by neither a digit nor a dot, matches exactly that pair and captures
the sign and integer digits of its two coordinates. -/
theorem run_pointsRegex_pair (p : Coord × Coord) (h1 : p.1.wf = true) (h2 : p.2.wf = true)
    (rest : List Char) (hdig : leads Char.isDigit rest = false)
    (hdot : leads (fun x => decide (x = '.')) rest = false) :
    (pointsRegex.run (pairText p ++ rest)).head?
      = some ⟨pairText p, rest, [(1, p.1.intText), (2, p.2.intText)]⟩ := by
  have e : pairText p ++ rest
      = p.1.intText ++ (p.1.fracText ++ (',' :: (p.2.intText ++ (p.2.fracText ++ rest)))) := by
    simp [pairText, Coord.text]
  rw [e]
  have g1 := run_group_head (i := 1)
    (run_intPart p.1 h1 (p.1.fracText ++ (',' :: (p.2.intText ++ (p.2.fracText ++ rest))))
      (leads_digit_fracText_append _ _ (by simp [leads, Char.isDigit])))
  have f1 := run_fracPart p.1 h1 (',' :: (p.2.intText ++ (p.2.fracText ++ rest)))
    (by simp [leads, Char.isDigit]) (by simp [leads])
  have cm : ((Re.chr ',').run (',' :: (p.2.intText ++ (p.2.fracText ++ rest)))).head?
      = some ⟨[','], p.2.intText ++ (p.2.fracText ++ rest), []⟩ := by simp [Re.run]
  have g2 := run_group_head (i := 2)
    (run_intPart p.2 h2 (p.2.fracText ++ rest) (leads_digit_fracText_append _ _ hdig))
  have f2 := run_fracPart p.2 h2 rest hdig hdot
  have t4 := run_seq_head (a := .group 2 intPart) (b := fracPart) g2 f2
  have t3 := run_seq_head (a := .chr ',') cm t4
  have t2 := run_seq_head (a := fracPart) f1 t3
  have t1 := run_seq_head (a := .group 1 intPart) g1 t2
  simpa [pointsRegex, MatchRes.andThen, pairText, Coord.text] using t1

theorem regexSearch_of_head {re : Re} {s : List Char} {r : MatchRes}
    (h : (re.run s).head? = some r) : regexSearch re s = some r := by
  cases s with
  | nil => simpa [regexSearch] using h
  | cons c cs => simp [regexSearch, h]

theorem regexSearch_skip {re : Re} {c : Char} {cs : List Char}
    (h : re.run (c :: cs) = []) : regexSearch re (c :: cs) = regexSearch re cs := by
  simp [regexSearch, h]

/-- The pattern needs a minus sign or a digit to start. -/
theorem run_pointsRegex_space (t : List Char) : pointsRegex.run (' ' :: t) = [] := by
  simp [pointsRegex, intPart, Re.run, atLeast, atMost, MatchRes.eps, Char.isDigit]

theorem run_pointsRegex_nil : pointsRegex.run [] = [] := by
  simp [pointsRegex, intPart, Re.run, atLeast, atMost, MatchRes.eps]

/-! ## `stoi` on a captured integer part -/

theorem digit_toNat_sub_le {d : Char} (h : d.isDigit = true) : d.toNat - 48 ≤ 9 := by
  simp only [Char.isDigit, Bool.and_eq_true, decide_eq_true_eq] at h
  have h2 : d.val.toNat ≤ 57 := h.2
  simp only [Char.toNat]
  omega

theorem digitsValue_le (ds : List Char) (hd : ds.all Char.isDigit = true) (h3 : ds.length ≤ 3) :
    digitsValue ds ≤ 999 := by
  match ds, hd, h3 with
  | [], _, _ => simp [digitsValue]
  | [a], hd, _ =>
    simp only [List.all_cons, List.all_nil, Bool.and_true, Bool.and_eq_true] at hd
    have := digit_toNat_sub_le hd
    simp only [digitsValue, List.foldl]; omega
  | [a, b], hd, _ =>
    simp only [List.all_cons, List.all_nil, Bool.and_true, Bool.and_eq_true] at hd
    have := digit_toNat_sub_le hd.1
    have := digit_toNat_sub_le hd.2
    simp only [digitsValue, List.foldl]; omega
  | [a, b, c], hd, _ =>
    simp only [List.all_cons, List.all_nil, Bool.and_true, Bool.and_eq_true] at hd
    have := digit_toNat_sub_le hd.1
    have := digit_toNat_sub_le hd.2.1
    have := digit_toNat_sub_le hd.2.2
    simp only [digitsValue, List.foldl]; omega
  | _ :: _ :: _ :: _ :: _, _, h3 => simp at h3

theorem takeWhile_all {p : Char → Bool} (l : List Char) (h : l.all p = true) :
    l.takeWhile p = l := by
  induction l with
  | nil => rfl
  | cons a t ih =>
    simp only [List.all_cons, Bool.and_eq_true] at h
    simp [List.takeWhile, h.1, ih h.2]

theorem isDigit_not_space {d : Char} (h : d.isDigit = true) : isspace d = false := by
  simp only [Char.isDigit, Bool.and_eq_true, decide_eq_true_eq] at h
  have h1 : 48 ≤ d.val.toNat := h.1
  have hne : ∀ c : Char, c.val.toNat < 48 → d ≠ c := by
    intro c hc e; subst e; omega
  simp [isspace, hne ' ' (by decide), hne '\t' (by decide), hne '\n' (by decide),
    hne '\x0b' (by decide), hne '\x0c' (by decide), hne '\r' (by decide)]

theorem isDigit_ne_plus {d : Char} (h : d.isDigit = true) : d ≠ '+' := by
  rintro rfl; simp [Char.isDigit] at h

theorem readSign_digit {d : Char} (t : List Char) (h : d.isDigit = true) :
    readSign (d :: t) = (false, d :: t) := by
  have hm := isDigit_ne_minus h
  have hp := isDigit_ne_plus h
  unfold readSign
  split
  · rename_i heq; simp only [List.cons.injEq] at heq; exact absurd heq.1 hm
  · rename_i heq; simp only [List.cons.injEq] at heq; exact absurd heq.1 hp
  · rfl

theorem stoi_minus_digits (ds : List Char) (hd : ds.all Char.isDigit = true)
    (h1 : 1 ≤ ds.length) (h3 : ds.length ≤ 3) :
    stoi ('-' :: ds) = some (-(digitsValue ds : Int)) := by
  have hv := digitsValue_le ds hd h3
  have hne : ds ≠ [] := by rintro rfl; simp at h1
  have hsp : isspace '-' = false := by decide
  have hs : readSign ('-' :: ds) = (true, ds) := rfl
  have hdw : List.dropWhile isspace ('-' :: ds) = '-' :: ds := by
    simp [List.dropWhile, hsp]
  simp only [stoi, hdw, hs, takeWhile_all ds hd, hne, if_false, if_true]
  rw [if_pos (by omega)]

theorem stoi_plain_digits (ds : List Char) (hd : ds.all Char.isDigit = true)
    (h1 : 1 ≤ ds.length) (h3 : ds.length ≤ 3) :
    stoi ds = some (digitsValue ds : Int) := by
  have hv := digitsValue_le ds hd h3
  cases ds with
  | nil => simp at h1
  | cons d t =>
    have hd0 : d.isDigit = true := by
      simp only [List.all_cons, Bool.and_eq_true] at hd; exact hd.1
    have hsp := isDigit_not_space hd0
    have hdw : List.dropWhile isspace (d :: t) = d :: t := by
      simp [List.dropWhile, hsp]
    simp only [stoi, hdw, readSign_digit t hd0, Bool.false_eq_true, if_false,
      takeWhile_all (d :: t) hd]
    rw [if_neg (by simp), if_pos (by omega)]

/-- The captured sign and integer digits of a well-formed coordinate are read
by `stoi` as the integer they denote; no exception is thrown. -/
theorem stoi_intText (c : Coord) (hc : c.wf = true) : stoi c.intText = some c.value := by
  obtain ⟨h1, h3, hd, _⟩ := (Coord.wf_iff c).1 hc
  cases hneg : c.neg with
  | true => simpa [Coord.intText, Coord.value, hneg] using stoi_minus_digits c.int hd h1 h3
  | false => simpa [Coord.intText, Coord.value, hneg] using stoi_plain_digits c.int hd h1 h3

/-! ## The parser on a written point list -/

theorem pointOfMatch_pair {F B : Type} (X : Externals F B) (p : Coord × Coord)
    (h1 : p.1.wf = true) (h2 : p.2.wf = true) (consumed rest : List Char) :
    pointOfMatch X ⟨consumed, rest, [(1, p.1.intText), (2, p.2.intText)]⟩
      = some (convertPair X p) := by
  have s1 : MatchRes.sub ⟨consumed, rest, [(1, p.1.intText), (2, p.2.intText)]⟩ 1
      = p.1.intText := by simp [MatchRes.sub, List.find?]
  have s2 : MatchRes.sub ⟨consumed, rest, [(1, p.1.intText), (2, p.2.intText)]⟩ 2
      = p.2.intText := by simp [MatchRes.sub, List.find?]
  simp only [pointOfMatch, s1, s2, stoi_intText _ h1, stoi_intText _ h2, convertPair]

theorem leads_moreText (ps : List (Coord × Coord)) :
    leads Char.isDigit (moreText ps) = false ∧
      leads (fun x => decide (x = '.')) (moreText ps) = false := by
  cases ps with
  | nil => simp [moreText, leads]
  | cons p t => simp [moreText, leads, Char.isDigit]

theorem regexSearch_pair (p : Coord × Coord) (h1 : p.1.wf = true) (h2 : p.2.wf = true)
    (ps : List (Coord × Coord)) :
    regexSearch pointsRegex (pairText p ++ moreText ps)
      = some ⟨pairText p, moreText ps, [(1, p.1.intText), (2, p.2.intText)]⟩ :=
  regexSearch_of_head
    (run_pointsRegex_pair p h1 h2 _ (leads_moreText ps).1 (leads_moreText ps).2)

theorem pairText_length_pos (p : Coord × Coord) : 0 < (pairText p).length := by
  simp [pairText]

theorem regexIter_moreText {F B : Type} (X : Externals F B) (ps : List (Coord × Coord)) :
    (∀ p ∈ ps, p.1.wf = true ∧ p.2.wf = true) → ∀ fuel, (moreText ps).length < fuel →
      (regexIter pointsRegex fuel (moreText ps)).mapM (pointOfMatch X)
        = some (ps.map (convertPair X)) := by
  induction ps with
  | nil =>
    intro _ fuel hf
    cases fuel with
    | zero => simp at hf
    | succ n =>
      simp only [moreText, regexIter, regexSearch, run_pointsRegex_nil, List.head?_nil,
        List.mapM_nil]
      rfl
  | cons p t ih =>
    intro hwf fuel hf
    have hp := hwf p (List.mem_cons_self _ _)
    have ht : ∀ q ∈ t, q.1.wf = true ∧ q.2.wf = true :=
      fun q hq => hwf q (List.mem_cons_of_mem _ hq)
    cases fuel with
    | zero => simp at hf
    | succ n =>
      have hs : regexSearch pointsRegex (moreText (p :: t))
          = some ⟨pairText p, moreText t, [(1, p.1.intText), (2, p.2.intText)]⟩ := by
        simp only [moreText]
        rw [regexSearch_skip (run_pointsRegex_space _)]
        exact regexSearch_pair p hp.1 hp.2 t
      have hlen : (moreText t).length < (moreText (p :: t)).length := by
        simp [moreText]; omega
      have hn : (moreText t).length < n := by
        simp only [moreText, List.length_cons, List.length_append] at hf; omega
      simp only [regexIter, hs, hlen, if_true, List.mapM_cons,
        pointOfMatch_pair X p hp.1 hp.2, ih ht n hn]
      rfl

/-- On a list of well-formed written pairs separated by single spaces the
parser returns, in order, the converted integer parts of every pair. -/
theorem parsePoints_pointsText {F B : Type} (X : Externals F B) (ps : List (Coord × Coord))
    (hwf : ∀ p ∈ ps, p.1.wf = true ∧ p.2.wf = true) :
    parsePoints X (pointsText ps) = some (ps.map (convertPair X)) := by
  cases ps with
  | nil =>
    simp only [parsePoints, regexMatches, pointsText, regexIter, regexSearch,
      run_pointsRegex_nil, List.head?_nil, List.mapM_nil]
    rfl
  | cons p t =>
    have hp := hwf p (List.mem_cons_self _ _)
    have ht : ∀ q ∈ t, q.1.wf = true ∧ q.2.wf = true :=
      fun q hq => hwf q (List.mem_cons_of_mem _ hq)
    have hs := regexSearch_pair p hp.1 hp.2 t
    have hpos := pairText_length_pos p
    have hlen : (moreText t).length < (pairText p ++ moreText t).length := by
      simp only [List.length_append]; omega
    simp only [parsePoints, regexMatches, pointsText, regexIter, hs, hlen, if_true,
      List.mapM_cons, pointOfMatch_pair X p hp.1 hp.2,
      regexIter_moreText X t ht _ hlen]
    rfl

/-- C3. Point-order preservation in the polygon/chain branch: for a `polygon`
or `chain` node whose `points` text is a list of integer coordinate pairs (each
coordinate one to three digits, optionally negative, no fraction) written as
"x,y" and separated by single spaces, `tempData` is, element by element and in
the same order, the pixel-to-meter conversion of the written pairs; in
particular it has the same length. (The empty list is covered as well.) -/
theorem shapePoints_preserves_order {F B : Type} (X : Externals F B)
    (ps : List (Coord × Coord)) (colliderGroupNode elem : xml_node) (width_height : iPoint)
    (hwf : ∀ p ∈ ps, (p.1.wf = true ∧ p.1.frac = none) ∧ (p.2.wf = true ∧ p.2.frac = none))
    (hkind : elem.name = "polygon" ∨ elem.name = "chain")
    (hpoints : as_string (elem.attr "points") = String.mk (pointsText ps)) :
    shapePoints X colliderGroupNode width_height elem
      = some (ps.map (fun p => (X.pixelToMeters p.1.value, X.pixelToMeters p.2.value))) := by
  have hp := parsePoints_pointsText X ps (fun p hp => ⟨(hwf p hp).1.1, (hwf p hp).2.1⟩)
  have hk : (StrEquals elem.name "chain" || StrEquals elem.name "polygon") = true := by
    rcases hkind with h | h <;> simp [StrEquals, h]
  have hl : (String.mk (pointsText ps)).toList = pointsText ps := rfl
  simp only [shapePoints, hk, if_true, hpoints, hl, hp]
  rfl

/-- C3, evaluated on the spec's example: `points="10,20 30,40 50,10"` yields the
conversions of (10,20), (30,40), (50,10), in that order. -/
theorem shapePoints_preserves_order_witness :
    shapePoints sampleExternals none (0, 0)
        (some (.mk "polygon" [("points", "10,20 30,40 50,10")] []))
      = some ([((10 : Int), (20 : Int)), (30, 40), (50, 10)].map
          (fun p => (sampleExternals.pixelToMeters p.1, sampleExternals.pixelToMeters p.2))) :=
  shapePoints_preserves_order sampleExternals
    [(Coord.ofDigits "10", Coord.ofDigits "20"), (Coord.ofDigits "30", Coord.ofDigits "40"),
      (Coord.ofDigits "50", Coord.ofDigits "10")]
    none (some (.mk "polygon" [("points", "10,20 30,40 50,10")] [])) (0, 0)
    (by decide) (Or.inl (by decide)) (by decide)

/-- C4. Decimal tolerance: in a list of well-formed written pairs separated by
single spaces, where any coordinate may carry a decimal fraction (a dot and one
or more digits after an integer part of one to three digits, optionally
negative), every pair is recovered once, in its position, and each parsed
coordinate is the conversion of the integer part alone: the result is the one
obtained from the same text with every fraction erased. -/
theorem parsePoints_truncates_fractions {F B : Type} (X : Externals F B)
    (ps : List (Coord × Coord)) (hwf : ∀ p ∈ ps, p.1.wf = true ∧ p.2.wf = true) :
    parsePoints X (pointsText ps)
        = some (ps.map (fun p => (X.pixelToMeters p.1.value, X.pixelToMeters p.2.value))) ∧
    parsePoints X (pointsText ps)
        = parsePoints X (pointsText (ps.map (fun p => (p.1.truncate, p.2.truncate)))) := by
  have h1 := parsePoints_pointsText X ps hwf
  have hwf2 : ∀ q ∈ ps.map (fun p : Coord × Coord => (p.1.truncate, p.2.truncate)),
      q.1.wf = true ∧ q.2.wf = true := by
    intro q hq
    obtain ⟨p, hp, rfl⟩ := List.mem_map.1 hq
    have hw := hwf p hp
    have ht : ∀ c : Coord, c.wf = true → c.truncate.wf = true := by
      intro c hc
      obtain ⟨a, b, d, _⟩ := (Coord.wf_iff c).1 hc
      exact (Coord.wf_iff _).2 ⟨a, b, d, by simp [Coord.truncate]⟩
    exact ⟨ht _ hw.1, ht _ hw.2⟩
  have h2 := parsePoints_pointsText X _ hwf2
  refine ⟨h1, ?_⟩
  rw [h1, h2, List.map_map]
  rfl

/-- C4, evaluated: `points="12.5,-7.25 3,4.0"` yields the conversions of
(12,-7) and (3,4). -/
theorem parsePoints_truncates_fractions_witness :
    parsePoints sampleExternals "12.5,-7.25 3,4.0".toList
      = some ([((12 : Int), (-7 : Int)), (3, 4)].map
          (fun p => (sampleExternals.pixelToMeters p.1, sampleExternals.pixelToMeters p.2))) :=
  (parsePoints_truncates_fractions sampleExternals
    [(⟨false, ['1', '2'], some ['5']⟩, ⟨true, ['7'], some ['2', '5']⟩),
      (⟨false, ['3'], none⟩, ⟨false, ['4'], some ['0']⟩)]
    (by decide)).1

/-! ## `stoi` never throws on a capture of the pattern -/

theorem mem_run_seq {a b : Re} {s : List Char} {r : MatchRes} :
    r ∈ (Re.seq a b).run s ↔ ∃ x ∈ a.run s, ∃ y ∈ b.run x.rest, r = x.andThen y := by
  simp only [Re.run, List.mem_flatMap, List.mem_map]
  constructor
  · rintro ⟨x, hx, y, hy, rfl⟩; exact ⟨x, hx, y, hy, rfl⟩
  · rintro ⟨x, hx, y, hy, rfl⟩; exact ⟨x, hx, y, hy, rfl⟩

theorem mem_run_group {a : Re} {i : Nat} {s : List Char} {r : MatchRes} :
    r ∈ (Re.group i a).run s ↔
      ∃ x ∈ a.run s, r = ⟨x.consumed, x.rest, x.caps ++ [(i, x.consumed)]⟩ := by
  simp only [Re.run, List.mem_map]
  constructor
  · rintro ⟨x, hx, rfl⟩; exact ⟨x, hx, rfl⟩
  · rintro ⟨x, hx, rfl⟩; exact ⟨x, hx, rfl⟩

theorem run_rep_star (a : Re) (s : List Char) :
    (Re.rep a 0 none).run s = atMost a.run s.length s := by
  simp only [Re.run, atLeast]

theorem mem_run_digit {s : List Char} {r : MatchRes} (h : r ∈ Re.digit.run s) :
    r.caps = [] ∧ r.consumed.all Char.isDigit = true ∧ r.consumed.length = 1 := by
  cases s with
  | nil => simp [Re.run] at h
  | cons c t =>
    by_cases hc : c.isDigit = true
    · simp [Re.run, hc] at h; subst h; simp [hc]
    · simp [Re.run, hc] at h

theorem mem_atMost_digit (n : Nat) :
    ∀ (s : List Char) (r : MatchRes), r ∈ atMost Re.digit.run n s →
      r.caps = [] ∧ r.consumed.all Char.isDigit = true ∧ r.consumed.length ≤ n := by
  induction n with
  | zero => intro s r h; simp [atMost, MatchRes.eps] at h; subst h; simp
  | succ n ih =>
    intro s r h
    simp only [atMost, List.mem_append, List.mem_flatMap, List.mem_filter, List.mem_map,
      List.mem_singleton] at h
    rcases h with ⟨a, ⟨ha, _⟩, b, hb, rfl⟩ | h
    · obtain ⟨a1, a2, a3⟩ := mem_run_digit ha
      obtain ⟨b1, b2, b3⟩ := ih _ _ hb
      simp only [MatchRes.andThen, a1, b1, List.append_nil, List.all_append, a2, b2,
        Bool.and_self, List.length_append, a3, true_and]
      omega
    · subst h; simp [MatchRes.eps]

theorem mem_run_digits13 {s : List Char} {r : MatchRes}
    (h : r ∈ (Re.rep .digit 1 (some 3)).run s) :
    r.caps = [] ∧ r.consumed.all Char.isDigit = true ∧ 1 ≤ r.consumed.length ∧
      r.consumed.length ≤ 3 := by
  simp only [Re.run, atLeast, List.mem_flatMap, List.mem_map] at h
  obtain ⟨a, ha, b, hb, rfl⟩ := h
  obtain ⟨a1, a2, a3⟩ := mem_run_digit ha
  obtain ⟨b1, b2, b3⟩ := mem_atMost_digit _ _ _ hb
  simp only [MatchRes.andThen, a1, b1, List.append_nil, List.all_append, a2, b2,
    Bool.and_self, List.length_append, a3, true_and]
  omega

theorem mem_run_digitsPlus {s : List Char} {r : MatchRes}
    (h : r ∈ (Re.rep .digit 1 none).run s) : r.caps = [] := by
  simp only [Re.run, atLeast, List.mem_flatMap, List.mem_map] at h
  obtain ⟨a, ha, b, hb, rfl⟩ := h
  obtain ⟨a1, _, _⟩ := mem_run_digit ha
  obtain ⟨b1, _, _⟩ := mem_atMost_digit _ _ _ hb
  simp [MatchRes.andThen, a1, b1]

theorem mem_run_chr {c : Char} {s : List Char} {r : MatchRes} (h : r ∈ (Re.chr c).run s) :
    r.caps = [] ∧ r.consumed = [c] := by
  cases s with
  | nil => simp [Re.run] at h
  | cons x t =>
    by_cases hc : x = c
    · simp [Re.run, hc] at h; subst h; simp
    · simp [Re.run, hc] at h

theorem mem_run_optMinus {s : List Char} {r : MatchRes}
    (h : r ∈ (Re.rep (.chr '-') 0 (some 1)).run s) :
    r.caps = [] ∧ (r.consumed = [] ∨ r.consumed = ['-']) := by
  simp only [Re.run, atLeast, atMost, List.mem_append, List.mem_flatMap, List.mem_filter,
    List.mem_map, List.mem_singleton] at h
  rcases h with ⟨a, ⟨ha, _⟩, b, hb, rfl⟩ | h
  · obtain ⟨a1, a2⟩ := mem_run_chr ha
    subst hb
    simp [MatchRes.andThen, MatchRes.eps, a1, a2]
  · subst h; simp [MatchRes.eps]

theorem mem_atMost_caps {body : List Char → List MatchRes}
    (hbody : ∀ s r, r ∈ body s → r.caps = []) (n : Nat) :
    ∀ (s : List Char) (r : MatchRes), r ∈ atMost body n s → r.caps = [] := by
  induction n with
  | zero => intro s r h; simp [atMost, MatchRes.eps] at h; subst h; rfl
  | succ n ih =>
    intro s r h
    simp only [atMost, List.mem_append, List.mem_flatMap, List.mem_filter, List.mem_map,
      List.mem_singleton] at h
    rcases h with ⟨a, ⟨ha, _⟩, b, hb, rfl⟩ | h
    · simp [MatchRes.andThen, hbody _ _ ha, ih _ _ hb]
    · subst h; rfl

theorem mem_run_fracPart {s : List Char} {r : MatchRes} (h : r ∈ fracPart.run s) :
    r.caps = [] := by
  unfold fracPart at h
  rw [run_rep_star] at h
  refine mem_atMost_caps ?_ _ _ _ h
  intro t a ha
  obtain ⟨x, hx, y, hy, rfl⟩ := mem_run_seq.1 ha
  simp [MatchRes.andThen, (mem_run_chr hx).1, mem_run_digitsPlus hy]

/-- Whatever the input, the integer part `-?\d{1,3}` consumes an optional minus
sign and one to three digits, which `stoi` reads without throwing. -/
theorem mem_run_intPart {s : List Char} {r : MatchRes} (h : r ∈ intPart.run s) :
    r.caps = [] ∧ ∃ v, stoi r.consumed = some v := by
  unfold intPart at h
  obtain ⟨a, ha, b, hb, rfl⟩ := mem_run_seq.1 h
  obtain ⟨a1, a2⟩ := mem_run_optMinus ha
  obtain ⟨b1, b2, b3, b4⟩ := mem_run_digits13 hb
  refine ⟨by simp [MatchRes.andThen, a1, b1], ?_⟩
  rcases a2 with a2 | a2
  · exact ⟨_, by simpa [MatchRes.andThen, a2] using stoi_plain_digits _ b2 b3 b4⟩
  · exact ⟨_, by simpa [MatchRes.andThen, a2] using stoi_minus_digits _ b2 b3 b4⟩

/-- Every match of the pattern, at any position of any text, carries two
captures that `stoi` reads without throwing. -/
theorem pointOfMatch_isSome {F B : Type} (X : Externals F B) {s : List Char} {m : MatchRes}
    (h : m ∈ pointsRegex.run s) : ∃ pt, pointOfMatch X m = some pt := by
  unfold pointsRegex at h
  obtain ⟨g1, hg1, t1, ht1, rfl⟩ := mem_run_seq.1 h
  obtain ⟨f1, hf1, t2, ht2, rfl⟩ := mem_run_seq.1 ht1
  obtain ⟨cm, hcm, t3, ht3, rfl⟩ := mem_run_seq.1 ht2
  obtain ⟨g2, hg2, f2, hf2, rfl⟩ := mem_run_seq.1 ht3
  obtain ⟨i1, hi1, rfl⟩ := mem_run_group.1 hg1
  obtain ⟨i2, hi2, rfl⟩ := mem_run_group.1 hg2
  obtain ⟨c1, v1, hv1⟩ := mem_run_intPart hi1
  obtain ⟨c2, v2, hv2⟩ := mem_run_intPart hi2
  have e1 := mem_run_fracPart hf1
  have e2 := mem_run_fracPart hf2
  have e3 := (mem_run_chr hcm).1
  have s1 : MatchRes.sub ((⟨i1.consumed, i1.rest, i1.caps ++ [(1, i1.consumed)]⟩ : MatchRes).andThen
      (f1.andThen (cm.andThen ((⟨i2.consumed, i2.rest, i2.caps ++ [(2, i2.consumed)]⟩ :
        MatchRes).andThen f2)))) 1 = i1.consumed := by
    simp [MatchRes.sub, MatchRes.andThen, c1, c2, e1, e2, e3, List.find?]
  have s2 : MatchRes.sub ((⟨i1.consumed, i1.rest, i1.caps ++ [(1, i1.consumed)]⟩ : MatchRes).andThen
      (f1.andThen (cm.andThen ((⟨i2.consumed, i2.rest, i2.caps ++ [(2, i2.consumed)]⟩ :
        MatchRes).andThen f2)))) 2 = i2.consumed := by
    simp [MatchRes.sub, MatchRes.andThen, c1, c2, e1, e2, e3, List.find?]
  exact ⟨(X.pixelToMeters v1, X.pixelToMeters v2), by simp only [pointOfMatch, s1, s2, hv1, hv2]⟩

theorem regexSearch_mem {re : Re} :
    ∀ {s : List Char} {m : MatchRes}, regexSearch re s = some m → ∃ t, m ∈ re.run t := by
  intro s
  induction s with
  | nil => intro m h; exact ⟨[], List.mem_of_mem_head? (by simpa [regexSearch] using h)⟩
  | cons c cs ih =>
    intro m h
    simp only [regexSearch] at h
    cases hh : (re.run (c :: cs)).head? with
    | none => rw [hh] at h; exact ih h
    | some r =>
      rw [hh] at h
      simp only [Option.some.injEq] at h
      subst h
      exact ⟨_, List.mem_of_mem_head? hh⟩

theorem regexIter_mem {re : Re} (fuel : Nat) :
    ∀ {s : List Char} {m : MatchRes}, m ∈ regexIter re fuel s → ∃ t, m ∈ re.run t := by
  induction fuel with
  | zero => intro s m h; simp [regexIter] at h
  | succ n ih =>
    intro s m h
    simp only [regexIter] at h
    cases hs : regexSearch re s with
    | none => simp [hs] at h
    | some r =>
      rw [hs] at h
      by_cases hl : r.rest.length < s.length
      · simp only [hl, if_true, List.mem_cons] at h
        rcases h with rfl | h
        · exact regexSearch_mem hs
        · exact ih h
      · simp only [hl, if_false, List.mem_singleton] at h
        subst h
        exact regexSearch_mem hs

theorem mapM_isSome {α β : Type} (f : α → Option β) (l : List α)
    (h : ∀ a ∈ l, ∃ b, f a = some b) : ∃ bs, l.mapM f = some bs := by
  induction l with
  | nil => exact ⟨[], rfl⟩
  | cons a t ih =>
    obtain ⟨b, hb⟩ := h a (List.mem_cons_self _ _)
    obtain ⟨bs, hbs⟩ := ih (fun x hx => h x (List.mem_cons_of_mem _ hx))
    exact ⟨b :: bs, by simp only [List.mapM_cons, hb, hbs]; rfl⟩

/-- The polygon/chain parser returns on every text: `stoi` is only ever applied
to captures of the form `-?\d{1,3}`, on which it does not throw. -/
theorem parsePoints_total {F B : Type} (X : Externals F B) (xyStr : List Char) :
    ∃ pts, parsePoints X xyStr = some pts := by
  unfold parsePoints regexMatches
  apply mapM_isSome
  intro m hm
  obtain ⟨t, ht⟩ := regexIter_mem _ hm
  exact pointOfMatch_isSome X ht

/-! ## One shape node -/

/-- The vector `tempData` is computed for every shape node: no exception
escapes the parser. -/
theorem shapePoints_total {F B : Type} (X : Externals F B) (colliderGroupNode : xml_node)
    (width_height : iPoint) (elem : xml_node) :
    ∃ tempData, shapePoints X colliderGroupNode width_height elem = some tempData := by
  unfold shapePoints
  simp only []
  split_ifs
  · exact parsePoints_total X _
  · exact ⟨_, rfl⟩
  · exact ⟨_, rfl⟩
  · exact ⟨_, rfl⟩

/-- A node that does not get past the emptiness check leaves the state as it
is. -/
theorem elemStep_skip {F B : Type} (X : Externals F B) (L : ColliderLayers) (restitution : F)
    (currentNode colliderGroupNode : xml_node) (width_height : iPoint)
    (st : Character × Physics F B) (elem : XmlTree)
    (h : producesFixture X colliderGroupNode width_height elem = false) :
    elemStep X L restitution currentNode colliderGroupNode width_height st elem = some st := by
  obtain ⟨td, htd⟩ := shapePoints_total X colliderGroupNode width_height (some elem)
  simp only [producesFixture, htd, Bool.not_eq_false'] at h
  simp only [elemStep, htd, h, if_true]

/-- A node that gets past the emptiness check has one fixture attached to the
entity's body, and takes the ground slot when its name is "ground". -/
theorem elemStep_produce {F B : Type} (X : Externals F B) (L : ColliderLayers) (restitution : F)
    (currentNode colliderGroupNode : xml_node) (width_height : iPoint)
    (st : Character × Physics F B) (elem : XmlTree) (pb : PhysBody)
    (h : producesFixture X colliderGroupNode width_height elem = true)
    (hpb : st.1.pBody = some pb) :
    elemStep X L restitution currentNode colliderGroupNode width_height st elem
      = some
          (if isGroundNode elem then
              { st.1 with pBody := some { pb with ground := some ⟨"ground", st.2.fixtures.length⟩ } }
            else st.1,
           { st.2 with fixtures := st.2.fixtures ++
              [(pb.body, nodeRequest X L restitution currentNode colliderGroupNode width_height
                  st.1.name st.1.type st.1.colliderOffset elem)] }) := by
  obtain ⟨td, htd⟩ := shapePoints_total X colliderGroupNode width_height (some elem)
  simp only [producesFixture, htd, Bool.not_eq_true'] at h
  by_cases hg : isGroundNode elem = true
  · have hname : as_string (xml_node.attr (some elem) "name") = "ground" := by
      simpa [isGroundNode, StrEquals] using hg
    have hs : StrEquals (as_string (xml_node.attr (some elem) "name")) "ground" = true := hg
    simp only [elemStep, htd, h, hpb, hs, hg, if_true, nodeRequest, Option.getD_some,
      Physics.CreateFixture, hname]
    rfl
  · have hs : StrEquals (as_string (xml_node.attr (some elem) "name")) "ground" = false := by
      simpa [isGroundNode] using hg
    simp only [elemStep, htd, h, hpb, hs, hg, nodeRequest, Option.getD_some,
      Physics.CreateFixture]
    rfl

/-! ## The loop over the shape nodes of one group -/

theorem groundFrom_nil (base : Nat) (slot : Option FixtureData) :
    groundFrom [] base slot = slot := rfl

theorem groundFrom_cons (e : XmlTree) (t : List XmlTree) (base : Nat)
    (slot : Option FixtureData) :
    groundFrom (e :: t) base slot
      = groundFrom t (base + 1) (if isGroundNode e then some ⟨"ground", base⟩ else slot) := by
  simp only [groundFrom, lastGroundIdx]
  cases h : lastGroundIdx t with
  | some i => simp only [Nat.add_assoc, Nat.add_comm 1 i]
  | none => by_cases hg : isGroundNode e = true <;> simp [hg]

theorem groundFrom_append (l1 l2 : List XmlTree) :
    ∀ (base : Nat) (slot : Option FixtureData),
      groundFrom (l1 ++ l2) base slot
        = groundFrom l2 (base + l1.length) (groundFrom l1 base slot) := by
  induction l1 with
  | nil => intro base slot; simp [groundFrom_nil]
  | cons e t ih =>
    intro base slot
    simp only [List.cons_append, groundFrom_cons, ih, List.length_cons]
    congr 1
    omega

theorem elems_fold {F B : Type} (X : Externals F B) (L : ColliderLayers) (restitution : F)
    (currentNode colliderGroupNode : xml_node) (width_height : iPoint) :
    ∀ (elems : List XmlTree) (c : Character) (w : Physics F B) (pb : PhysBody),
      c.pBody = some pb →
      elems.foldlM (elemStep X L restitution currentNode colliderGroupNode width_height) (c, w)
        = some
          ({ c with
              pBody := some { pb with
                ground := groundFrom
                  (elems.filter (producesFixture X colliderGroupNode width_height))
                  w.fixtures.length pb.ground } },
           { w with
              fixtures := w.fixtures ++
                (elems.filter (producesFixture X colliderGroupNode width_height)).map
                  (fun e => (pb.body,
                    nodeRequest X L restitution currentNode colliderGroupNode width_height
                      c.name c.type c.colliderOffset e)) }) := by
  intro elems
  induction elems with
  | nil =>
    intro c w pb hpb
    obtain ⟨n, pa, po, ty, co, pbo⟩ := c
    simp only at hpb
    subst hpb
    simp [groundFrom_nil]
  | cons e t ih =>
    intro c w pb hpb
    by_cases hp : producesFixture X colliderGroupNode width_height e = true
    · have h1 := elemStep_produce X L restitution currentNode colliderGroupNode width_height
        (c, w) e pb hp hpb
      simp only [List.foldlM_cons, h1, List.filter_cons, hp, if_true, groundFrom_cons,
        List.map_cons, Option.bind_eq_bind, Option.some_bind]
      by_cases hg : isGroundNode e = true
      · simp only [hg, if_true]
        rw [ih _ _ { pb with ground := some ⟨"ground", w.fixtures.length⟩ } rfl]
        simp
      · have hg' : isGroundNode e = false := by simpa using hg
        simp only [hg', Bool.false_eq_true, if_false]
        rw [ih _ _ pb hpb]
        simp
    · have hp' : producesFixture X colliderGroupNode width_height e = false := by
        simpa using hp
      have h1 := elemStep_skip X L restitution currentNode colliderGroupNode width_height
        (c, w) e hp'
      simp only [List.foldlM_cons, h1, List.filter_cons, hp', Option.bind_eq_bind,
        Option.some_bind]
      simpa using ih c w pb hpb

/-! ## The loop over the collider groups -/

theorem groupRequests_length {F B : Type} (X : Externals F B) (L : ColliderLayers)
    (restitution : F) (currentNode : xml_node) (name : String) (type : Int)
    (colliderOffset : iPoint) (g : XmlTree) :
    (groupRequests X L restitution currentNode name type colliderOffset g).length
      = (producingNodes X g).length := by
  simp [groupRequests]

/-- A collider group visited when the entity already has a body: every
producing shape node gets one fixture on that body. -/
theorem groupStep_body {F B : Type} (X : Externals F B) (L : ColliderLayers)
    (gravity restitution : F) (currentNode : xml_node) (c : Character) (w : Physics F B)
    (pb : PhysBody) (g : XmlTree) (hpb : c.pBody = some pb) :
    groupStep X L gravity restitution currentNode (c, w) g
      = some
          ({ c with
              pBody := some { pb with
                ground := groundFrom (producingNodes X g) w.fixtures.length pb.ground } },
           { w with
              fixtures := w.fixtures ++
                (groupRequests X L restitution currentNode c.name c.type c.colliderOffset g).map
                  (fun fd => (pb.body, fd)) }) := by
  simp only [groupStep, hpb, xml_node.children]
  rw [elems_fold X L restitution currentNode (some g) (groupSize X (some g)) g.children c w pb hpb]
  simp [groupRequests, producingNodes, List.map_map, Function.comp_def]

/-- A collider group visited when the entity has no body yet: the offset is
recorded, the body is created, and every producing shape node gets one fixture
on it. -/
theorem groupStep_fresh {F B : Type} (X : Externals F B) (L : ColliderLayers)
    (gravity restitution : F) (currentNode : xml_node) (c : Character) (w : Physics F B)
    (g : XmlTree) (hpb : c.pBody = none) :
    groupStep X L gravity restitution currentNode (c, w) g
      = some
          ({ c with
              colliderOffset := groupOffset X (some g)
              pBody := some
                { body := w.bodies.length
                  width_height := groupSize X (some g)
                  type := c.type
                  listener := some c.name
                  ground := groundFrom (producingNodes X g) w.fixtures.length none } },
           { bodies := w.bodies ++ [bodyRequest X gravity c.position (groupOffset X (some g)) (some g)]
             fixtures := w.fixtures ++
                (groupRequests X L restitution currentNode c.name c.type
                    (groupOffset X (some g)) g).map
                  (fun fd => (w.bodies.length, fd)) }) := by
  simp only [groupStep, hpb, xml_node.children, Physics.CreateBody]
  rw [elems_fold X L restitution currentNode (some g) (groupSize X (some g)) g.children _ _ _ rfl]
  simp [groupRequests, producingNodes, List.map_map, Function.comp_def]

theorem groups_fold {F B : Type} (X : Externals F B) (L : ColliderLayers)
    (gravity restitution : F) (currentNode : xml_node) :
    ∀ (gs : List XmlTree) (c : Character) (w : Physics F B) (pb : PhysBody),
      c.pBody = some pb →
      gs.foldlM (groupStep X L gravity restitution currentNode) (c, w)
        = some
          ({ c with
              pBody := some { pb with
                ground := groundFrom (gs.flatMap (producingNodes X)) w.fixtures.length
                  pb.ground } },
           { w with
              fixtures := w.fixtures ++
                (gs.flatMap
                    (groupRequests X L restitution currentNode c.name c.type c.colliderOffset)).map
                  (fun fd => (pb.body, fd)) }) := by
  intro gs
  induction gs with
  | nil =>
    intro c w pb hpb
    obtain ⟨n, pa, po, ty, co, pbo⟩ := c
    simp only at hpb
    subst hpb
    simp [groundFrom_nil]
  | cons g t ih =>
    intro c w pb hpb
    simp only [List.foldlM_cons, groupStep_body X L gravity restitution currentNode c w pb g hpb,
      Option.bind_eq_bind, Option.some_bind]
    rw [ih _ _ _ rfl]
    simp [List.flatMap_cons, groundFrom_append, groupRequests_length]

/-! ## A whole run -/

theorem compiledGroups_ne_nil {parameters : xml_node}
    (hphys : (parameters.child "physics").empty = false)
    (hgrp : ∃ n ∈ (parameters.child "animationdata").children,
      (xml_node.child (some n) "collidergroup").empty = false) :
    compiledGroups parameters ≠ [] := by
  obtain ⟨n, hn, hc⟩ := hgrp
  have hfind : ∃ node, colliderAnimation parameters = some node ∧
      (xml_node.child (some node) "collidergroup").empty = false := by
    cases hf : colliderAnimation parameters with
    | none =>
      unfold colliderAnimation at hf
      have := List.find?_eq_none.1 hf n hn
      simp [hc] at this
    | some node =>
      unfold colliderAnimation at hf
      have := List.find?_some hf
      exact ⟨node, rfl, by simpa using this⟩
  obtain ⟨node, hnode, hchild⟩ := hfind
  simp only [compiledGroups, hphys, Bool.false_eq_true, if_false, hnode]
  intro hnil
  simp only [xml_node.children_named, xml_node.children, List.filter_eq_nil_iff] at hnil
  simp only [xml_node.child, xml_node.empty, Option.isNone_eq_false_iff, Option.isSome_iff_exists]
    at hchild
  obtain ⟨ch, hch⟩ := hchild
  exact hnil ch (List.mem_of_find?_eq_some hch)
    (List.find?_some (p := fun c : XmlTree => decide (c.name = "collidergroup")) hch)

/-- The state in which a run leaves a bodiless entity whose descriptor reaches
the loop over the collider groups: one `CreateBody` call, for the first group,
and one fixture on that body per producing shape node of every visited group. -/
theorem CreatePhysBody_run {F B : Type} (X : Externals F B) (L : ColliderLayers)
    (c : Character) (w : Physics F B) (hb : c.pBody = none)
    (hne : compiledGroups c.parameters ≠ []) :
    CreatePhysBody X L c w
      = some
          ({ c with
              type := runType X c.parameters
              colliderOffset := runOffset X c.parameters
              pBody := some
                { body := w.bodies.length
                  width_height := groupSize X (firstGroup c.parameters)
                  type := runType X c.parameters
                  listener := some c.name
                  ground := groundFrom (runNodes X c.parameters) w.fixtures.length none } },
           { bodies := w.bodies ++
                [bodyRequest X (gravityOf X (c.parameters.child "physics")) c.position
                  (runOffset X c.parameters) (firstGroup c.parameters)]
             fixtures := w.fixtures ++
                (runRequests X L c.name c.parameters).map (fun fd => (w.bodies.length, fd)) }) := by
  have hphys : (c.parameters.child "physics").empty = false := by
    by_contra h
    simp only [Bool.not_eq_false] at h
    exact hne (by simp [compiledGroups, h])
  have hcg : compiledGroups c.parameters
      = xml_node.children_named (colliderAnimation c.parameters) "collidergroup" := by
    simp [compiledGroups, hphys]
  cases hnode : colliderAnimation c.parameters with
  | none => exact absurd (by simp [hcg, hnode, xml_node.children_named, xml_node.children]) hne
  | some node =>
    have hfirst : (c.parameters.child "animationdata").first_child.empty = false := by
      have hmem := List.mem_of_find?_eq_some (show List.find? _ _ = some node from hnode)
      cases hch : c.parameters.child "animationdata" with
      | none => simp [hch, xml_node.children] at hmem
      | some t =>
        simp only [hch, xml_node.children] at hmem
        cases hl : t.children with
        | nil => simp [hl] at hmem
        | cons a u => simp [xml_node.first_child, xml_node.empty, hl]
    rw [hnode] at hcg
    cases hgs : xml_node.children_named (some node) "collidergroup" with
    | nil => exact absurd (by rw [hcg, hgs]) hne
    | cons g0 gs =>
      have hfg : firstGroup c.parameters = some g0 := by simp [firstGroup, hcg, hgs]
      simp only [CreatePhysBody, hphys, hfirst, hnode, hgs, Bool.false_eq_true, if_false,
        List.foldlM_cons]
      rw [groupStep_fresh X L _ _ _ _ w g0 (show ({ c with
        type := as_int X ((c.parameters.child "physics").attr "colliderlayers") } :
          Character).pBody = none from hb)]
      simp only [Option.bind_eq_bind, Option.some_bind]
      rw [groups_fold X L _ _ _ gs _ _ _ rfl]
      simp [runNodes, runRequests, runOffset, runType, hcg, hgs, hfg, hnode, List.flatMap_cons,
        groundFrom_append, groupRequests_length]

/-! ## The last node named "ground" -/

theorem lastGroundIdx_eq_none {l : List XmlTree} :
    lastGroundIdx l = none ↔ ∀ e ∈ l, isGroundNode e = false := by
  induction l with
  | nil => simp [lastGroundIdx]
  | cons a t ih =>
    simp only [lastGroundIdx, List.mem_cons, forall_eq_or_imp]
    cases h : lastGroundIdx t with
    | some i =>
      simp only [reduceCtorEq, false_iff, not_and]
      intro _ hall
      exact absurd (ih.2 hall) (by simp [h])
    | none =>
      have ht := ih.1 h
      by_cases hg : isGroundNode a = true
      · simp [hg]
      · simpa [hg] using ht

theorem lastGroundIdx_eq_some {l : List XmlTree} :
    ∀ {i : Nat}, lastGroundIdx l = some i →
      ∃ e, l[i]? = some e ∧ isGroundNode e = true ∧
        ∀ j e2, i < j → l[j]? = some e2 → isGroundNode e2 = false := by
  induction l with
  | nil => intro i h; simp [lastGroundIdx] at h
  | cons a t ih =>
    intro i h
    simp only [lastGroundIdx] at h
    cases ht : lastGroundIdx t with
    | some k =>
      rw [ht] at h
      simp only [Option.some.injEq] at h
      subst h
      obtain ⟨e, he, hg, hlast⟩ := ih ht
      refine ⟨e, by simpa using he, hg, ?_⟩
      intro j e2 hj hj2
      cases j with
      | zero => omega
      | succ j => exact hlast j e2 (by omega) (by simpa using hj2)
    | none =>
      rw [ht] at h
      by_cases hg : isGroundNode a = true
      · simp only [hg, if_true, Option.some.injEq] at h
        subst h
        refine ⟨a, by simp, hg, ?_⟩
        intro j e2 hj hj2
        cases j with
        | zero => omega
        | succ j =>
          have hmem : e2 ∈ t := List.getElem?_mem (by simpa using hj2)
          exact (lastGroundIdx_eq_none.1 ht) e2 hmem
      · simp [hg] at h

theorem groundFrom_none_isSome (l : List XmlTree) (base : Nat) :
    (groundFrom l base none).isSome = true ↔ ∃ e ∈ l, isGroundNode e = true := by
  unfold groundFrom
  cases h : lastGroundIdx l with
  | some i =>
    obtain ⟨e, he, hg, _⟩ := lastGroundIdx_eq_some h
    simp only [Option.isSome_some, true_iff]
    exact ⟨e, List.getElem?_mem he, hg⟩
  | none =>
    have := lastGroundIdx_eq_none.1 h
    simp only [Option.isSome_none, Bool.false_eq_true, false_iff, not_exists, not_and]
    intro e he
    simp [this e he]

theorem runRequests_length {F B : Type} (X : Externals F B) (L : ColliderLayers) (name : String)
    (parameters : xml_node) :
    (runRequests X L name parameters).length = (runNodes X parameters).length := by
  simp only [runRequests, runNodes, List.length_flatMap, Function.comp_def,
    groupRequests_length]

/-! ## Shape nodes: rejection, offset, material -/

theorem producesFixture_kind {F B : Type} (X : Externals F B) (colliderGroupNode : xml_node)
    (width_height : iPoint) (elem : XmlTree)
    (h : producesFixture X colliderGroupNode width_height elem = true) :
    elem.name = "chain" ∨ elem.name = "polygon" ∨ elem.name = "rectangle" ∨
      elem.name = "circle" := by
  by_contra hno
  simp only [not_or] at hno
  obtain ⟨h1, h2, h3, h4⟩ := hno
  simp [producesFixture, shapePoints, xml_node.name, StrEquals, h1, h2, h3, h4] at h

/-- C6. Circle offset correction: the fixture attached for a shape node that
produces one has `positionOffset` equal to the pixel-to-meter conversion of
`(x - colliderOffset.x, y - colliderOffset.y)` when the node is a circle, and
(0, 0) when it is a polygon, a chain or a rectangle; no other kind produces a
fixture. -/
theorem fixture_positionOffset {F B : Type} (X : Externals F B) (L : ColliderLayers)
    (restitution : F) (currentNode colliderGroupNode : xml_node) (width_height : iPoint)
    (st : Character × Physics F B) (elem : XmlTree) (pb : PhysBody)
    (hpb : st.1.pBody = some pb)
    (hp : producesFixture X colliderGroupNode width_height elem = true) :
    ∃ st' fd, elemStep X L restitution currentNode colliderGroupNode width_height st elem
        = some st' ∧
      st'.2.fixtures = st.2.fixtures ++ [(pb.body, fd)] ∧
      (elem.name = "circle" →
        fd.positionOffset = X.pixelToMetersVec
          (as_int X (xml_node.attr (some elem) "x") - st.1.colliderOffset.1,
           as_int X (xml_node.attr (some elem) "y") - st.1.colliderOffset.2)) ∧
      (elem.name = "polygon" ∨ elem.name = "chain" ∨ elem.name = "rectangle" →
        fd.positionOffset = (X.zero, X.zero)) ∧
      (elem.name = "circle" ∨ elem.name = "polygon" ∨ elem.name = "chain" ∨
        elem.name = "rectangle") := by
  refine ⟨_, _, elemStep_produce X L restitution currentNode colliderGroupNode width_height
    st elem pb hp hpb, rfl, ?_, ?_, ?_⟩
  · intro hc
    simp [nodeRequest, fixtureRequest, ShapeData.isCircle, StrEquals, xml_node.name, hc]
  · intro hk
    have hne : elem.name ≠ "circle" := by
      rcases hk with h | h | h <;> rw [h] <;> decide
    simp [nodeRequest, fixtureRequest, ShapeData.isCircle, StrEquals, xml_node.name, hne]
  · rcases producesFixture_kind X _ _ _ hp with h | h | h | h
    · exact Or.inr (Or.inr (Or.inl h))
    · exact Or.inr (Or.inl h)
    · exact Or.inr (Or.inr (Or.inr h))
    · exact Or.inl h

/-- C6, evaluated on the spec's example: a circle at (15, 25) in a state whose
`colliderOffset` is (5, 5) gets the conversion of (10, 20). -/
theorem fixture_positionOffset_witness :
    (∃ st' fd, elemStep sampleExternals sampleLayers 100 none
          (some (.mk "collidergroup" [("radius", "12")] [])) (0, 0) sampleBodyState
          (.mk "circle" [("x", "15"), ("y", "25")] []) = some st' ∧
        st'.2.fixtures = sampleBodyState.2.fixtures ++ [(0, fd)] ∧
        fd.positionOffset = sampleExternals.pixelToMetersVec (15 - 5, 25 - 5)) ∧
    sampleExternals.pixelToMetersVec (15 - 5, 25 - 5) = sampleExternals.pixelToMetersVec (10, 20) :=
  ⟨(fixture_positionOffset sampleExternals sampleLayers 100 none
      (some (.mk "collidergroup" [("radius", "12")] [])) (0, 0) sampleBodyState
      (.mk "circle" [("x", "15"), ("y", "25")] [])
      { body := 0, width_height := (30, 40), type := 1, listener := some "player",
        ground := none } rfl (by decide)).imp
      (fun _ h => h.imp (fun _ h2 => ⟨h2.1, h2.2.1, h2.2.2.1 (by decide)⟩)),
   by decide⟩

/-- C9, evaluated at the failing input: the shape node carries `sensor="true"`
and `density="2"`, the enclosing `animation` node carries neither; the fixture
is created with `isSensor = false` and density 0, because both are read from
the `animation` node. Friction (3.0, from the shape node) and restitution (0.0,
from the physics section) are as the claim says. -/
theorem sensor_density_not_from_shape_node :
    as_bool sampleExternals
        (xml_node.attr (some (.mk "rectangle"
          [("sensor", "true"), ("density", "2"), ("friction", "3")] [])) "sensor") = true ∧
    as_float sampleExternals
        (xml_node.attr (some (.mk "rectangle"
          [("sensor", "true"), ("density", "2"), ("friction", "3")] [])) "density") = 200 ∧
    (CreatePhysBody sampleExternals sampleLayers (sampleCharacter "player" sensorOnShape)
        emptyPhysics).map
          (fun r => r.2.fixtures.map
            (fun f => (f.2.isSensor, f.2.density, f.2.friction, f.2.restitution)))
      = some [(false, 0, 300, 0)] := by
  decide

/-! ## Whole-run properties -/

/-- C7. Single body per entity: for an entity without a body whose descriptor
has a `physics` section and at least one collider group under a child of
`animationdata`, the run returns, makes exactly one `CreateBody` call (for the
first collider group), stores that body in the entity, and attaches to it every
fixture it creates: one per producing shape node of every visited group. -/
theorem single_body_per_entity {F B : Type} (X : Externals F B) (L : ColliderLayers)
    (c : Character) (w : Physics F B) (hb : c.pBody = none)
    (hphys : (c.parameters.child "physics").empty = false)
    (hgrp : ∃ n ∈ (c.parameters.child "animationdata").children,
      (xml_node.child (some n) "collidergroup").empty = false) :
    ∃ c' w' pb, CreatePhysBody X L c w = some (c', w') ∧
      w'.bodies.length = w.bodies.length + 1 ∧
      w'.bodies = w.bodies ++
        [bodyRequest X (gravityOf X (c.parameters.child "physics")) c.position
          (groupOffset X (firstGroup c.parameters)) (firstGroup c.parameters)] ∧
      c'.pBody = some pb ∧ pb.body = w.bodies.length ∧
      w'.fixtures = w.fixtures ++
        (runRequests X L c.name c.parameters).map (fun fd => (pb.body, fd)) ∧
      (∀ i, w.fixtures.length ≤ i → ∀ f, w'.fixtures[i]? = some f → f.1 = pb.body) := by
  have hrun := CreatePhysBody_run X L c w hb (compiledGroups_ne_nil hphys hgrp)
  refine ⟨_, _, _, hrun, by simp, rfl, rfl, rfl, rfl, ?_⟩
  intro i hi f hf
  simp only [List.getElem?_append_right hi, List.getElem?_map, Option.map_eq_some'] at hf
  obtain ⟨fd, _, rfl⟩ := hf
  rfl

/-- C7, evaluated on a descriptor with three collider groups: one body, three
fixtures, all on body 0. -/
theorem single_body_per_entity_witness :
    ∃ c' w' pb, CreatePhysBody sampleExternals sampleLayers
        (sampleCharacter "player" threeGroups) emptyPhysics = some (c', w') ∧
      w'.bodies.length = 1 ∧ c'.pBody = some pb ∧ pb.body = 0 ∧
      w'.fixtures.map Prod.fst = [0, 0, 0] := by
  obtain ⟨c', w', pb, h1, h2, _, h4, h5, h6, _⟩ :=
    single_body_per_entity sampleExternals sampleLayers (sampleCharacter "player" threeGroups)
      emptyPhysics rfl (by decide) ⟨_, List.Mem.head _, by decide⟩
  refine ⟨c', w', pb, h1, h2, h4, h5, ?_⟩
  rw [h6, h5]
  decide

/-- C8, counterexample. The descriptor contains a shape node named "ground"
(a polygon without points), yet after the run the ground slot is empty. -/
theorem ground_node_without_fixture :
    ((compiledGroups skippedGround).flatMap XmlTree.children).any isGroundNode = true ∧
    (CreatePhysBody sampleExternals sampleLayers (sampleCharacter "player" skippedGround)
        emptyPhysics).map (fun r => r.1.pBody.map (fun pb => pb.ground))
      = some (some none) := by
  decide

/-- C8, amended. After a run on a bodiless entity whose descriptor reaches the
collider-group loop, the ground slot is set if and only if one of the shape
nodes that produce a fixture is named "ground"; it then holds the name "ground"
and the handle of the fixture created for the last such node. -/
theorem ground_slot_after_run {F B : Type} (X : Externals F B) (L : ColliderLayers)
    (c : Character) (w : Physics F B) (hb : c.pBody = none)
    (hphys : (c.parameters.child "physics").empty = false)
    (hgrp : ∃ n ∈ (c.parameters.child "animationdata").children,
      (xml_node.child (some n) "collidergroup").empty = false) :
    ∃ c' w' pb, CreatePhysBody X L c w = some (c', w') ∧ c'.pBody = some pb ∧
      (pb.ground.isSome = true ↔ ∃ e ∈ runNodes X c.parameters, isGroundNode e = true) ∧
      (∀ fd, pb.ground = some fd →
        fd.name = "ground" ∧
        ∃ i e, fd.fixture = w.fixtures.length + i ∧
          (runNodes X c.parameters)[i]? = some e ∧ isGroundNode e = true ∧
          (∀ j e2, i < j → (runNodes X c.parameters)[j]? = some e2 →
            isGroundNode e2 = false) ∧
          w'.fixtures[fd.fixture]?
            = ((runRequests X L c.name c.parameters)[i]?).map (fun r => (pb.body, r))) := by
  have hrun := CreatePhysBody_run X L c w hb (compiledGroups_ne_nil hphys hgrp)
  refine ⟨_, _, _, hrun, rfl, groundFrom_none_isSome _ _, ?_⟩
  intro fd hfd
  simp only [groundFrom] at hfd
  cases hl : lastGroundIdx (runNodes X c.parameters) with
  | none => simp [hl] at hfd
  | some i =>
    simp only [hl, Option.some.injEq] at hfd
    subst hfd
    obtain ⟨e, he, hg, hlast⟩ := lastGroundIdx_eq_some hl
    refine ⟨rfl, i, e, rfl, he, hg, hlast, ?_⟩
    simp [List.getElem?_append_right]

/-- C8, amended, evaluated: with two producing nodes named "ground" the slot
is set, and holds the fixture of the second one (handle 2). -/
theorem ground_slot_after_run_witness :
    (∃ c' w' pb, CreatePhysBody sampleExternals sampleLayers
        (sampleCharacter "player" twoGrounds) emptyPhysics = some (c', w') ∧
      c'.pBody = some pb ∧ pb.ground.isSome = true) ∧
    (CreatePhysBody sampleExternals sampleLayers (sampleCharacter "player" twoGrounds)
        emptyPhysics).map (fun r => r.1.pBody.map (fun pb => pb.ground))
      = some (some (some ⟨"ground", 2⟩)) := by
  refine ⟨?_, by decide⟩
  obtain ⟨c', w', pb, h1, h2, h3, _⟩ :=
    ground_slot_after_run sampleExternals sampleLayers (sampleCharacter "player" twoGrounds)
      emptyPhysics rfl (by decide) ⟨_, List.Mem.head _, by decide⟩
  exact ⟨c', w', pb, h1, h2, h3.2 ⟨.mk "rectangle" [("name", "ground")] [],
    List.Mem.head _, by decide⟩⟩

/-- C10, counterexample. The first child of the first collider group sits at
(5, 7): the body is created at (105, 207), not at the spawn position
(100, 200). -/
theorem body_not_at_spawn_position :
    (sampleCharacter "player" threeGroups).position = (100, 200) ∧
    (CreatePhysBody sampleExternals sampleLayers (sampleCharacter "player" threeGroups)
        emptyPhysics).map (fun r => (r.2.bodies.map (fun b => b.position), r.1.colliderOffset))
      = some ([(105, 207)], (5, 7)) := by
  decide

/-- C10, amended. The single body of a run on a bodiless entity is created at
the spawn position plus `colliderOffset`, with the body type named by the
`class` attribute of the first collider group, angle 0, damping (0, 0.01) and
the `gravityscale` of the physics section (1.0 when absent); `colliderOffset`
is recorded as the `x`/`y` attributes of the first child of the first collider
group. -/
theorem body_creation_parameters {F B : Type} (X : Externals F B) (L : ColliderLayers)
    (c : Character) (w : Physics F B) (hb : c.pBody = none)
    (hphys : (c.parameters.child "physics").empty = false)
    (hgrp : ∃ n ∈ (c.parameters.child "animationdata").children,
      (xml_node.child (some n) "collidergroup").empty = false) :
    ∃ c' w', CreatePhysBody X L c w = some (c', w') ∧
      c'.colliderOffset =
        (as_int X ((firstGroup c.parameters).first_child.attr "x"),
         as_int X ((firstGroup c.parameters).first_child.attr "y")) ∧
      w'.bodies = w.bodies ++
        [{ position := (c.position.1 + c'.colliderOffset.1, c.position.2 + c'.colliderOffset.2)
           bodyType := X.bodyTypeStrToEnum (as_string ((firstGroup c.parameters).attr "class"))
           angle := X.zero
           damping := (X.zero, X.hundredth)
           gravityScale :=
             if attrPresent ((c.parameters.child "physics").attr "gravityscale") then
               as_float X ((c.parameters.child "physics").attr "gravityscale")
             else X.one }] :=
  ⟨_, _, CreatePhysBody_run X L c w hb (compiledGroups_ne_nil hphys hgrp), rfl, rfl⟩

/-- C10, amended, evaluated on the descriptor with three collider groups. -/
theorem body_creation_parameters_witness :
    ∃ c' w', CreatePhysBody sampleExternals sampleLayers
        (sampleCharacter "player" threeGroups) emptyPhysics = some (c', w') ∧
      c'.colliderOffset = (5, 7) ∧
      w'.bodies = [⟨(105, 207), "dynamic", 0, (0, 1), 200⟩] := by
  obtain ⟨c', w', h1, h2, h3⟩ :=
    body_creation_parameters sampleExternals sampleLayers (sampleCharacter "player" threeGroups)
      emptyPhysics rfl (by decide) ⟨_, List.Mem.head _, by decide⟩
  refine ⟨c', w', h1, ?_, ?_⟩
  · rw [h2]; decide
  · rw [h3, h2]; decide

/-! ## Bad shape nodes, missing sections, circles, visited groups -/

theorem foldlM_append_option {α β : Type} (f : β → α → Option β) (l1 l2 : List α) (b : β) :
    (l1 ++ l2).foldlM f b = (l1.foldlM f b).bind (fun b' => l2.foldlM f b') := by
  induction l1 generalizing b with
  | nil => simp
  | cons a t ih =>
    simp only [List.cons_append, List.foldlM_cons, Option.bind_eq_bind]
    cases f b a with
    | none => simp
    | some b' => simp

theorem bad_node_no_fixture {F B : Type} (X : Externals F B) (bad : XmlTree)
    (hbad : (bad.name ≠ "polygon" ∧ bad.name ≠ "chain" ∧ bad.name ≠ "rectangle" ∧
        bad.name ≠ "circle") ∨
      ((bad.name = "polygon" ∨ bad.name = "chain") ∧
        parsePoints X (as_string (xml_node.attr (some bad) "points")).toList = some []))
    (colliderGroupNode : xml_node) (width_height : iPoint) :
    producesFixture X colliderGroupNode width_height bad = false := by
  rcases hbad with ⟨h1, h2, h3, h4⟩ | ⟨hk, hp⟩
  · simp [producesFixture, shapePoints, xml_node.name, StrEquals, h1, h2, h3, h4]
  · have hk' : (StrEquals (xml_node.name (some bad)) "chain" ||
        StrEquals (xml_node.name (some bad)) "polygon") = true := by
      rcases hk with h | h <;> simp [xml_node.name, h, StrEquals]
    simp only [producesFixture, shapePoints, hk', if_true, hp]
    rfl

/-- The round of a collider group is the same with and without a child that
produces no fixture, unless that child is the first one and the body is still
to be created (the first child fixes `colliderOffset`). -/
theorem groupStep_without_bad {F B : Type} (X : Externals F B) (L : ColliderLayers)
    (gravity restitution : F) (currentNode : xml_node) (name : String)
    (attrs : List (String × String)) (pre post : List XmlTree) (bad : XmlTree)
    (st : Character × Physics F B)
    (hno : ∀ grp wh, producesFixture X grp wh bad = false)
    (hfirst : pre ≠ [] ∨ st.1.pBody ≠ none) :
    groupStep X L gravity restitution currentNode st (.mk name attrs (pre ++ bad :: post))
      = groupStep X L gravity restitution currentNode st (.mk name attrs (pre ++ post)) := by
  have hfold : ∀ s : Character × Physics F B,
      (pre ++ bad :: post).foldlM
          (elemStep X L restitution currentNode (some (.mk name attrs (pre ++ bad :: post)))
            (groupSize X (some (.mk name attrs (pre ++ bad :: post))))) s
        = (pre ++ post).foldlM
          (elemStep X L restitution currentNode (some (.mk name attrs (pre ++ post)))
            (groupSize X (some (.mk name attrs (pre ++ post))))) s := by
    intro s
    have e : elemStep X L restitution currentNode (some (.mk name attrs (pre ++ bad :: post)))
          (groupSize X (some (.mk name attrs (pre ++ bad :: post))))
        = elemStep X L restitution currentNode (some (.mk name attrs (pre ++ post)))
          (groupSize X (some (.mk name attrs (pre ++ post)))) := rfl
    rw [e, foldlM_append_option, foldlM_append_option]
    congr 1
    funext s2
    simp only [List.foldlM_cons, elemStep_skip X L restitution currentNode _ _ s2 bad (hno _ _),
      Option.bind_eq_bind, Option.some_bind]
  cases hpb : st.1.pBody with
  | some pb =>
    simp only [groupStep, hpb, xml_node.children, XmlTree.children]
    exact hfold st
  | none =>
    have hpre : pre ≠ [] := by
      rcases hfirst with h | h
      · exact h
      · exact absurd hpb h
    obtain ⟨a, t, rfl⟩ := List.exists_cons_of_ne_nil hpre
    simp only [groupStep, hpb, xml_node.children, XmlTree.children]
    exact hfold _

theorem groups_fold_has_body {F B : Type} (X : Externals F B) (L : ColliderLayers)
    (gravity restitution : F) (currentNode : xml_node) (gs : List XmlTree)
    (st s1 : Character × Physics F B)
    (h : gs.foldlM (groupStep X L gravity restitution currentNode) st = some s1)
    (hne : gs ≠ [] ∨ st.1.pBody ≠ none) : s1.1.pBody ≠ none := by
  obtain ⟨c, w⟩ := st
  cases hpb : c.pBody with
  | some pb =>
    rw [groups_fold X L gravity restitution currentNode gs c w pb hpb] at h
    simp only [Option.some.injEq] at h
    rw [← h]
    simp
  | none =>
    cases gs with
    | nil =>
      rcases hne with h' | h'
      · exact absurd rfl h'
      · exact absurd hpb h'
    | cons g t =>
      simp only [List.foldlM_cons, groupStep_fresh X L gravity restitution currentNode c w g hpb,
        Option.bind_eq_bind, Option.some_bind] at h
      rw [groups_fold X L gravity restitution currentNode t _ _ _ rfl] at h
      simp only [Option.some.injEq] at h
      rw [← h]
      simp

/-- C11, counterexample. Two departures from the claim. A circle in a
descriptor without any `radius` attribute is not skipped: a fixture of radius
0.0 is created for it. And a skipped node changes what its sibling gets when it
is the first child of the first collider group: with an `ellipse` at (5, 7) in
front, the circle at (15, 25) gets the offset of (10, 18); without it, the
offset of (0, 0). -/
theorem circle_without_radius_gets_fixture :
    (CreatePhysBody sampleExternals sampleLayers (sampleCharacter "player" circleWithoutRadius)
        emptyPhysics).map (fun r => r.2.fixtures.map (fun f => f.2.shape))
      = some [⟨"circle", [(0, 0)]⟩] ∧
    (CreatePhysBody sampleExternals sampleLayers (sampleCharacter "player" badFirstChild)
        emptyPhysics).map (fun r => r.2.fixtures.map (fun f => f.2.positionOffset))
      = some [sampleExternals.pixelToMetersVec (10, 18)] ∧
    (CreatePhysBody sampleExternals sampleLayers (sampleCharacter "player" badFirstChildRemoved)
        emptyPhysics).map (fun r => r.2.fixtures.map (fun f => f.2.positionOffset))
      = some [sampleExternals.pixelToMetersVec (0, 0)] ∧
    sampleExternals.pixelToMetersVec (10, 18) ≠ sampleExternals.pixelToMetersVec (0, 0) := by
  decide

/-- C11, amended. A shape node whose tag is none of polygon, chain, rectangle,
circle, and a polygon or chain node without a parseable pair, produce no
fixture (their round leaves the state unchanged), and the loop over the
collider groups ends in the state it reaches when that node is absent, so that
every other node gets exactly the same fixture, unless the node is the first
child of the collider group on which the body is created (the first visited
group of an entity without a body), whose first child fixes `colliderOffset`.
A circle node always gets past the emptiness check, with or without a `radius`
attribute. -/
theorem bad_node_skipped {F B : Type} (X : Externals F B) (L : ColliderLayers)
    (gravity restitution : F) (currentNode : xml_node) (before after : List XmlTree)
    (name : String) (attrs : List (String × String)) (pre post : List XmlTree)
    (bad : XmlTree) (st : Character × Physics F B)
    (hbad : (bad.name ≠ "polygon" ∧ bad.name ≠ "chain" ∧ bad.name ≠ "rectangle" ∧
        bad.name ≠ "circle") ∨
      ((bad.name = "polygon" ∨ bad.name = "chain") ∧
        parsePoints X (as_string (xml_node.attr (some bad) "points")).toList = some []))
    (hfirst : pre ≠ [] ∨ before ≠ [] ∨ st.1.pBody ≠ none) :
    (∀ (grp : xml_node) (wh : iPoint) (s : Character × Physics F B),
      elemStep X L restitution currentNode grp wh s bad = some s) ∧
    (before ++ .mk name attrs (pre ++ bad :: post) :: after).foldlM
        (groupStep X L gravity restitution currentNode) st
      = (before ++ .mk name attrs (pre ++ post) :: after).foldlM
        (groupStep X L gravity restitution currentNode) st ∧
    (∀ (grp : xml_node) (wh : iPoint) (circle : XmlTree), circle.name = "circle" →
      producesFixture X grp wh circle = true) := by
  have hno := bad_node_no_fixture X bad hbad
  refine ⟨fun grp wh s => elemStep_skip X L restitution currentNode grp wh s bad (hno grp wh),
    ?_, ?_⟩
  · rw [foldlM_append_option, foldlM_append_option]
    cases h1 : before.foldlM (groupStep X L gravity restitution currentNode) st with
    | none => rfl
    | some s1 =>
      have hs1 : pre ≠ [] ∨ s1.1.pBody ≠ none := by
        rcases hfirst with h | h
        · exact Or.inl h
        · exact Or.inr (groups_fold_has_body X L gravity restitution currentNode before st s1
            h1 h)
      simp only [Option.bind_eq_bind, Option.some_bind, List.foldlM_cons,
        groupStep_without_bad X L gravity restitution currentNode name attrs pre post bad s1
          hno hs1]
  · intro grp wh circle hc
    simp [producesFixture, shapePoints, xml_node.name, StrEquals, hc]

/-- C11, amended, evaluated: an `ellipse` node between two rectangles of the
first collider group of an entity without a body changes nothing. -/
theorem bad_node_skipped_witness :
    [XmlTree.mk "collidergroup" [("width", "30"), ("height", "40")]
        [.mk "rectangle" [] [], .mk "ellipse" [] [], .mk "rectangle" [] []]].foldlM
        (groupStep sampleExternals sampleLayers 100 100 none)
        (sampleCharacter "player" none, emptyPhysics)
      = [XmlTree.mk "collidergroup" [("width", "30"), ("height", "40")]
        [.mk "rectangle" [] [], .mk "rectangle" [] []]].foldlM
        (groupStep sampleExternals sampleLayers 100 100 none)
        (sampleCharacter "player" none, emptyPhysics) :=
  (bad_node_skipped sampleExternals sampleLayers 100 100 none [] []
    "collidergroup" [("width", "30"), ("height", "40")]
    [.mk "rectangle" [] []] [.mk "rectangle" [] []] (.mk "ellipse" [] [])
    (sampleCharacter "player" none, emptyPhysics)
    (Or.inl ⟨by decide, by decide, by decide, by decide⟩) (Or.inl (by simp))).2.1

/-- C12. Missing sections leave the entity bodiless: when the descriptor has no
`physics` child, or no `animationdata` section, or no child of `animationdata`
with a `collidergroup` child, the run returns without any `CreateBody` or
`CreateFixture` call (the physics module is unchanged) and leaves the entity's
body and `colliderOffset` as they were. -/
theorem missing_sections_leave_bodiless {F B : Type} (X : Externals F B) (L : ColliderLayers)
    (c : Character) (w : Physics F B)
    (h : (c.parameters.child "physics").empty = true ∨
      (c.parameters.child "animationdata").empty = true ∨
      ∀ n ∈ (c.parameters.child "animationdata").children,
        (xml_node.child (some n) "collidergroup").empty = true) :
    ∃ c', CreatePhysBody X L c w = some (c', w) ∧ c'.pBody = c.pBody ∧
      c'.colliderOffset = c.colliderOffset := by
  by_cases hphys : (c.parameters.child "physics").empty = true
  · exact ⟨c, by simp [CreatePhysBody, hphys], rfl, rfl⟩
  · have hnone : colliderAnimation c.parameters = none := by
      rcases h with h | h | h
      · exact absurd h hphys
      · have hch : c.parameters.child "animationdata" = none := by
          simpa [xml_node.empty] using h
        simp [colliderAnimation, hch, xml_node.children]
      · unfold colliderAnimation
        apply List.find?_eq_none.2
        intro n hn
        simp [h n hn]
    refine ⟨{ c with type := as_int X ((c.parameters.child "physics").attr "colliderlayers") },
      ?_, rfl, rfl⟩
    simp only [CreatePhysBody, hphys, Bool.false_eq_true, if_false, hnone]
    split_ifs <;> rfl

/-- C12, evaluated on a descriptor without a `physics` section (its collider
group is never reached). -/
theorem missing_sections_leave_bodiless_witness :
    ∃ c', CreatePhysBody sampleExternals sampleLayers (sampleCharacter "player" noPhysics)
        emptyPhysics = some (c', emptyPhysics) ∧
      c'.pBody = none ∧ c'.colliderOffset = (0, 0) :=
  missing_sections_leave_bodiless sampleExternals sampleLayers
    (sampleCharacter "player" noPhysics) emptyPhysics (Or.inl (by decide))

/-- C13, evaluated at the failing input: the collider group and the circle node
both say `radius="12"`, and the group is 12 pixels wide and high. The circle
branch hands the shape builder 12.00, the attribute text read as a float, where
the rectangle branch hands over the conversion of 12 pixels (0.24 with the
sample factor of 50 pixels per metre): the radius is not converted. With the
radius written on the circle node only, the value handed over is 0. -/
theorem circle_radius_not_converted :
    shapePoints sampleExternals
        (some (.mk "collidergroup" [("radius", "12"), ("width", "12"), ("height", "12")] []))
        (12, 12) (some (.mk "circle" [("radius", "12")] []))
      = some [(1200, 0)] ∧
    shapePoints sampleExternals
        (some (.mk "collidergroup" [("radius", "12"), ("width", "12"), ("height", "12")] []))
        (12, 12) (some (.mk "rectangle" [] []))
      = some [(24, 24)] ∧
    sampleExternals.pixelToMeters 12 = 24 ∧
    shapePoints sampleExternals (some (.mk "collidergroup" [] [])) (0, 0)
        (some (.mk "circle" [("radius", "12")] [])) = some [(0, 0)] := by
  decide

/-- C14, counterexample. Two `animation` children hold one collider group each,
with one rectangle each: two well-formed shape nodes, but the run visits only
the groups of the first such child and creates a single fixture. -/
theorem second_animation_not_compiled :
    ((allColliderGroups twoAnimations).flatMap (producingNodes sampleExternals)).length = 2 ∧
    (CreatePhysBody sampleExternals sampleLayers (sampleCharacter "player" twoAnimations)
        emptyPhysics).map (fun r => r.2.fixtures.length) = some 1 := by
  decide

/-- C14, amended. A run on a bodiless entity compiles the collider groups of
the first child of `animationdata` that has one: each shape node of those
groups that gets past the emptiness check has exactly one fixture submitted to
the entity's body, in document order, and the number of fixtures created is the
number of such nodes over those groups. -/
theorem visited_groups_compiled {F B : Type} (X : Externals F B) (L : ColliderLayers)
    (c : Character) (w : Physics F B) (hb : c.pBody = none)
    (hphys : (c.parameters.child "physics").empty = false)
    (hgrp : ∃ n ∈ (c.parameters.child "animationdata").children,
      (xml_node.child (some n) "collidergroup").empty = false) :
    ∃ c' w' pb, CreatePhysBody X L c w = some (c', w') ∧ c'.pBody = some pb ∧
      compiledGroups c.parameters
        = xml_node.children_named (colliderAnimation c.parameters) "collidergroup" ∧
      w'.fixtures = w.fixtures ++
        (compiledGroups c.parameters).flatMap (fun g =>
          (g.children.filter (producesFixture X (some g) (groupSize X (some g)))).map
            (fun e => (pb.body,
              nodeRequest X L (restitutionOf X (c.parameters.child "physics"))
                (colliderAnimation c.parameters) (some g) (groupSize X (some g))
                c'.name c'.type c'.colliderOffset e))) ∧
      w'.fixtures.length = w.fixtures.length +
        ((compiledGroups c.parameters).flatMap (fun g =>
          g.children.filter (producesFixture X (some g) (groupSize X (some g))))).length := by
  have hrun := CreatePhysBody_run X L c w hb (compiledGroups_ne_nil hphys hgrp)
  refine ⟨_, _, _, hrun, rfl, by simp [compiledGroups, hphys], ?_, ?_⟩
  · simp [runRequests, groupRequests, producingNodes, List.map_flatMap, List.map_map,
      Function.comp_def]
  · have := runRequests_length X L c.name c.parameters
    simp only [List.length_append, List.length_map, this, runNodes, producingNodes]
    rfl

/-- C14, amended, evaluated on the descriptor with three collider groups under
one `animation` child: three fixtures. -/
theorem visited_groups_compiled_witness :
    ∃ c' w', CreatePhysBody sampleExternals sampleLayers
        (sampleCharacter "player" threeGroups) emptyPhysics = some (c', w') ∧
      w'.fixtures.length = 3 := by
  obtain ⟨c', w', pb, h1, _, _, _, h5⟩ :=
    visited_groups_compiled sampleExternals sampleLayers (sampleCharacter "player" threeGroups)
      emptyPhysics rfl (by decide) ⟨_, List.Mem.head _, by decide⟩
  exact ⟨c', w', h1, by rw [h5]; decide⟩

/-! ## Tile-set lookup and tile rectangle -/

theorem contiguous_firstgid_le (t0 : TileSet) (rest : List TileSet)
    (hcont : contiguous (t0 :: rest) = true) (hpos : ∀ t ∈ t0 :: rest, 0 < t.tilecount) :
    ∀ t ∈ rest, t0.firstgid + t0.tilecount ≤ t.firstgid := by
  induction rest generalizing t0 with
  | nil => intro t ht; simp at ht
  | cons t1 r ih =>
    intro t ht
    simp only [contiguous, Bool.and_eq_true, decide_eq_true_eq] at hcont
    have h1pos := hpos t1 (by simp)
    rcases List.mem_cons.1 ht with rfl | ht
    · omega
    · have := ih t1 hcont.2 (fun x hx => hpos x (List.mem_cons_of_mem _ hx)) t ht
      omega

/-- With the exact sum, the search returns a tile set exactly when its range
contains the gid, and nothing exactly at or beyond the end of the last range. -/
theorem firstBelowEnd_contiguous (t0 : TileSet) (rest : List TileSet) (gid : Int)
    (hcont : contiguous (t0 :: rest) = true) (hpos : ∀ t ∈ t0 :: rest, 0 < t.tilecount)
    (hgid : t0.firstgid ≤ gid) :
    (∀ t, firstBelowEnd (t0 :: rest) gid = some t ↔
      (t ∈ t0 :: rest ∧ t.firstgid ≤ gid ∧ gid < t.firstgid + t.tilecount)) ∧
    (∀ last, (t0 :: rest).getLast? = some last →
      (firstBelowEnd (t0 :: rest) gid = none ↔
        last.firstgid + last.tilecount ≤ gid)) := by
  induction rest generalizing t0 with
  | nil =>
    constructor
    · intro t
      by_cases h : gid < t0.firstgid + t0.tilecount
      · simp only [firstBelowEnd, List.find?, h, decide_True, Option.some.injEq,
          List.mem_singleton]
        constructor
        · rintro rfl; exact ⟨rfl, hgid, h⟩
        · rintro ⟨rfl, _⟩; rfl
      · simp only [firstBelowEnd, List.find?, h, decide_False, List.mem_singleton]
        constructor
        · intro hh; cases hh
        · rintro ⟨rfl, _, h2⟩; exact absurd h2 h
    · intro last hl
      simp only [List.getLast?_singleton, Option.some.injEq] at hl
      subst hl
      by_cases h : gid < t0.firstgid + t0.tilecount
      · simp only [firstBelowEnd, List.find?, h, decide_True]
        constructor
        · intro hh; cases hh
        · intro hh; omega
      · simp only [firstBelowEnd, List.find?, h, decide_False, true_iff]
        omega
  | cons t1 r ih =>
    have hmono := contiguous_firstgid_le t0 (t1 :: r) hcont hpos
    have hc := hcont
    simp only [contiguous, Bool.and_eq_true, decide_eq_true_eq] at hc
    have hpos' : ∀ t ∈ t1 :: r, 0 < t.tilecount := fun x hx => hpos x (List.mem_cons_of_mem _ hx)
    by_cases h : gid < t0.firstgid + t0.tilecount
    · have hres : firstBelowEnd (t0 :: t1 :: r) gid = some t0 := by
        simp [firstBelowEnd, List.find?, h]
      constructor
      · intro t
        rw [hres]
        constructor
        · intro hh
          simp only [Option.some.injEq] at hh
          subst hh
          exact ⟨List.mem_cons_self _ _, hgid, h⟩
        · rintro ⟨hm, h1, _⟩
          rcases List.mem_cons.1 hm with rfl | hm
          · rfl
          · have := hmono t hm; omega
      · intro last hl
        rw [hres]
        have hlm : last ∈ t1 :: r := by
          have : (t1 :: r).getLast? = some last := by simpa using hl
          exact List.mem_of_getLast?_eq_some this
        have h1 := hmono last hlm
        have h2 := hpos' last hlm
        constructor
        · intro hh; cases hh
        · intro hh; omega
    · have hres : firstBelowEnd (t0 :: t1 :: r) gid
          = firstBelowEnd (t1 :: r) gid := by
        simp [firstBelowEnd, List.find?, h]
      have hgid1 : t1.firstgid ≤ gid := by omega
      obtain ⟨iha, ihb⟩ := ih t1 hc.2 hpos' hgid1
      constructor
      · intro t
        rw [hres, iha t]
        constructor
        · rintro ⟨hm, h1, h2⟩; exact ⟨List.mem_cons_of_mem _ hm, h1, h2⟩
        · rintro ⟨hm, h1, h2⟩
          rcases List.mem_cons.1 hm with rfl | hm
          · exact absurd h2 h
          · exact ⟨hm, h1, h2⟩
      · intro last hl
        rw [hres]
        exact ihb last (by simpa using hl)

theorem toInt32_of_fits {n : Int} (h1 : -2147483648 ≤ n) (h2 : n ≤ 2147483647) :
    toInt32 n = n := by
  unfold toInt32
  omega

/-- When no range end overflows, the lookup is the search with the exact sum. -/
theorem GetTilesetFromTileId_of_fits (tilesets : List TileSet) (gid : Int)
    (hpos : ∀ t ∈ tilesets, 0 < t.tilecount) (hfit : ∀ t ∈ tilesets, t.fits = true) :
    GetTilesetFromTileId tilesets gid = firstBelowEnd tilesets gid := by
  induction tilesets with
  | nil => rfl
  | cons a r ih =>
    have hp := hpos a (List.mem_cons_self _ _)
    have hf := hfit a (List.mem_cons_self _ _)
    simp only [TileSet.fits, Bool.and_eq_true, decide_eq_true_eq] at hf
    have e : toInt32 (a.firstgid + a.tilecount) = a.firstgid + a.tilecount :=
      toInt32_of_fits (by omega) hf.2
    have ih' := ih (fun t ht => hpos t (List.mem_cons_of_mem _ ht))
      (fun t ht => hfit t (List.mem_cons_of_mem _ ht))
    simp only [GetTilesetFromTileId, firstBelowEnd] at ih' ⊢
    simp only [List.find?, e, ih']

/-- C16, counterexample. The single tile set covers the range
`[INT_MAX, INT_MAX + 1)`, which is non-empty and contains the gid `INT_MAX`,
yet the lookup returns null: the `int` sum `firstgid + tilecount` overflows. -/
theorem tileset_range_end_overflows :
    contiguous [lastGidTiles] = true ∧ 0 < lastGidTiles.tilecount ∧
    lastGidTiles.firstgid ≤ 2147483647 ∧
    (2147483647 : Int) < lastGidTiles.firstgid + lastGidTiles.tilecount ∧
    GetTilesetFromTileId [lastGidTiles] 2147483647 = none := by
  decide

/-- C16, amended. Tile-set lookup: for a non-empty list of tile sets whose gid
ranges `[firstgid, firstgid + tilecount)` are contiguous and non-empty (hence
in ascending order of `firstgid`) and whose range ends do not exceed `INT_MAX`,
and a gid not below the first `firstgid`, `GetTilesetFromTileId` returns a tile
set exactly when it is the tile set of the list whose range contains the gid
(so that tile set is unique), and returns null exactly when the gid is at or
beyond the end of the last range. -/
theorem GetTilesetFromTileId_contiguous (t0 : TileSet) (rest : List TileSet) (gid : Int)
    (hcont : contiguous (t0 :: rest) = true) (hpos : ∀ t ∈ t0 :: rest, 0 < t.tilecount)
    (hfit : ∀ t ∈ t0 :: rest, t.fits = true)
    (hgid : t0.firstgid ≤ gid) :
    (∀ t, GetTilesetFromTileId (t0 :: rest) gid = some t ↔
      (t ∈ t0 :: rest ∧ t.firstgid ≤ gid ∧ gid < t.firstgid + t.tilecount)) ∧
    (∀ last, (t0 :: rest).getLast? = some last →
      (GetTilesetFromTileId (t0 :: rest) gid = none ↔
        last.firstgid + last.tilecount ≤ gid)) := by
  rw [GetTilesetFromTileId_of_fits (t0 :: rest) gid hpos hfit]
  exact firstBelowEnd_contiguous t0 rest gid hcont hpos hgid

/-- C16, amended, evaluated on two tile sets covering 1..8 and 9..12: gid 9
belongs to the second one, gid 13 to none. -/
theorem GetTilesetFromTileId_contiguous_witness :
    (∀ t, GetTilesetFromTileId sampleTilesets 9 = some t ↔
      (t ∈ sampleTilesets ∧ t.firstgid ≤ 9 ∧ 9 < t.firstgid + t.tilecount)) ∧
    (GetTilesetFromTileId sampleTilesets 9).map (fun t => t.name) = some "props" ∧
    GetTilesetFromTileId sampleTilesets 13 = none :=
  ⟨(GetTilesetFromTileId_contiguous _ _ 9 (by decide) (by decide) (by decide) (by decide)).1,
   by decide, by decide⟩

/-- C17, evaluated at the failing input: in a tile set of 32x16 tiles with four
columns, gid 6 is the tile of column 1, row 1; its rectangle is returned with
y = 32 (one tile width down), whereas row 1 starts at
`margin + (tileHeight + spacing) * 1 = 16`. The other three fields are as the
claim says. -/
theorem GetTileRect_row_uses_tileWidth :
    groundTiles.GetTileRect 6 = some { x := 32, y := 32, w := 32, h := 16 } ∧
    Int.tmod (6 - groundTiles.firstgid) groundTiles.columns = 1 ∧
    Int.tdiv (6 - groundTiles.firstgid) groundTiles.columns = 1 ∧
    groundTiles.margin + (groundTiles.tileHeight + groundTiles.spacing) * 1 = 16 := by
  decide

/-! ## Coordinates of more than three digits -/

theorem atMost_eq_eps {body : List Char → List MatchRes} {n : Nat} {s : List Char}
    (hb : body s = []) : atMost body n s = [MatchRes.eps s] := by
  cases n with
  | zero => simp [atMost]
  | succ n => simp [atMost, hb]

/-- In front of anything but a dot, the fraction swallower only matches empty. -/
theorem run_fracPart_noDot {t : List Char}
    (hdot : leads (fun x => decide (x = '.')) t = false) :
    fracPart.run t = [MatchRes.eps t] := by
  unfold fracPart
  rw [run_rep_star]
  apply atMost_eq_eps
  have h0 := run_chr_of_not_leads hdot
  simp only [Re.run] at h0 ⊢
  rw [h0]; rfl

/-- In front of anything but a minus sign, `-?` only matches empty. -/
theorem run_optMinus_noMinus {s : List Char}
    (h : leads (fun x => decide (x = '-')) s = false) :
    (Re.rep (.chr '-') 0 (some 1)).run s = [MatchRes.eps s] := by
  have h0 := run_chr_of_not_leads h
  simp only [Re.run, atLeast] at h0 ⊢
  exact atMost_eq_eps h0

theorem mem_run_digit_split {s : List Char} {r : MatchRes} (h : r ∈ Re.digit.run s) :
    r.consumed ++ r.rest = s := by
  cases s with
  | nil => simp [Re.run] at h
  | cons c t =>
    by_cases hc : c.isDigit = true
    · simp [Re.run, hc] at h; subst h; rfl
    · simp [Re.run, hc] at h

theorem mem_atMost_digit_split (n : Nat) :
    ∀ (s : List Char) (r : MatchRes), r ∈ atMost Re.digit.run n s →
      r.consumed ++ r.rest = s := by
  induction n with
  | zero => intro s r h; simp [atMost, MatchRes.eps] at h; subst h; rfl
  | succ n ih =>
    intro s r h
    simp only [atMost, List.mem_append, List.mem_flatMap, List.mem_filter, List.mem_map,
      List.mem_singleton] at h
    rcases h with ⟨a, ⟨ha, _⟩, b, hb, rfl⟩ | h
    · have h1 := mem_run_digit_split ha
      have h2 := ih _ _ hb
      simp only [MatchRes.andThen, List.append_assoc, h2, h1]
    · subst h; rfl

/-- Without a leading minus sign, the integer part leaves what follows its one
to three digits. -/
theorem mem_run_intPart_drop {s : List Char} {r : MatchRes}
    (hs : leads (fun x => decide (x = '-')) s = false) (h : r ∈ intPart.run s) :
    ∃ k, 1 ≤ k ∧ k ≤ 3 ∧ r.rest = s.drop k := by
  unfold intPart at h
  obtain ⟨a, ha, b, hb, rfl⟩ := mem_run_seq.1 h
  rw [run_optMinus_noMinus hs] at ha
  simp only [List.mem_singleton] at ha
  subst ha
  obtain ⟨_, _, b3, b4⟩ := mem_run_digits13 hb
  have hsplit : b.consumed ++ b.rest = s := by
    simp only [Re.run, atLeast, List.mem_flatMap, List.mem_map] at hb
    obtain ⟨x, hx, y, hy, rfl⟩ := hb
    have h1 := mem_run_digit_split hx
    have h2 := mem_atMost_digit_split _ _ _ hy
    simp only [MatchRes.andThen, List.append_assoc, h2]
    exact h1
  refine ⟨b.consumed.length, b3, b4, ?_⟩
  simp only [MatchRes.andThen]
  rw [← hsplit]
  simp

/-- The pattern has no match starting at a position whose first four characters
(as far as they exist) are all digits: after at most three digits it needs a
dot or a comma. -/
theorem run_pointsRegex_digits {s : List Char}
    (hs : ∀ k c, k ≤ 3 → s[k]? = some c → c.isDigit = true) : pointsRegex.run s = [] := by
  have hlead : ∀ (p : Char → Bool) (k : Nat), k ≤ 3 → (∀ c, c.isDigit = true → p c = false) →
      leads p (s.drop k) = false := by
    intro p k hk hp
    cases hd : s.drop k with
    | nil => rfl
    | cons c t =>
      have : s[k]? = some c := by
        have := congrArg List.head? hd
        simpa [List.head?_drop] using this
      exact hp c (hs k c hk this)
  have hminus : leads (fun x => decide (x = '-')) s = false := by
    have := hlead (fun x => decide (x = '-')) 0 (by omega)
      (fun c hc => by simpa using isDigit_ne_minus hc)
    simpa using this
  apply List.eq_nil_iff_forall_not_mem.2
  intro m hm
  unfold pointsRegex at hm
  obtain ⟨g1, hg1, t1, ht1, rfl⟩ := mem_run_seq.1 hm
  obtain ⟨f1, hf1, t2, ht2, rfl⟩ := mem_run_seq.1 ht1
  obtain ⟨cm, hcm, t3, _, rfl⟩ := mem_run_seq.1 ht2
  obtain ⟨i1, hi1, rfl⟩ := mem_run_group.1 hg1
  obtain ⟨k, hk1, hk3, hrest⟩ := mem_run_intPart_drop hminus hi1
  simp only at hf1
  rw [hrest] at hf1
  have hdot := hlead (fun x => decide (x = '.')) k hk3
    (fun c hc => by
      have : c ≠ '.' := by rintro rfl; simp [Char.isDigit] at hc
      simpa using this)
  have hcomma := hlead (fun x => decide (x = ',')) k hk3
    (fun c hc => by
      have : c ≠ ',' := by rintro rfl; simp [Char.isDigit] at hc
      simpa using this)
  rw [run_fracPart_noDot hdot] at hf1
  simp only [List.mem_singleton] at hf1
  subst hf1
  simp only [MatchRes.eps] at hcm
  rw [run_chr_of_not_leads hcomma] at hcm
  simp at hcm

/-- The quantifier `\d{1,3}` stops after three digits whatever follows. -/
theorem run_digits13_cap {ds rest : List Char} (hd : ds.all Char.isDigit = true)
    (h3 : ds.length = 3) :
    ((Re.rep .digit 1 (some 3)).run (ds ++ rest)).head? = some ⟨ds, rest, []⟩ := by
  match ds, hd, h3 with
  | [a, b, c], hd, _ =>
    simp only [List.all_cons, List.all_nil, Bool.and_true, Bool.and_eq_true] at hd
    obtain ⟨ha, hb, hc⟩ := hd
    simp [Re.run, atLeast, atMost, ha, hb, hc, MatchRes.andThen, MatchRes.eps]

/-- The integer part on one to three unsigned digits that are either exactly
three or followed by a non-digit. -/
theorem run_intPart_unsigned {ds z : List Char} (hd : ds.all Char.isDigit = true)
    (h1 : 1 ≤ ds.length) (h3 : ds.length ≤ 3)
    (hcap : ds.length = 3 ∨ leads Char.isDigit z = false) :
    (intPart.run (ds ++ z)).head? = some ⟨ds, z, []⟩ := by
  have hdig : ((Re.rep .digit 1 (some 3)).run (ds ++ z)).head? = some ⟨ds, z, []⟩ := by
    rcases hcap with h | h
    · exact run_digits13_cap hd h
    · exact run_digits13 hd h1 h3 h
  cases hds : ds with
  | nil => simp [hds] at h1
  | cons d t =>
    have hd0 : d.isDigit = true := by
      rw [hds] at hd; simp only [List.all_cons, Bool.and_eq_true] at hd; exact hd.1
    have h0 := run_optMinus_digit (t ++ z) hd0
    rw [hds] at hdig
    have := run_seq_head (a := .rep (.chr '-') 0 (some 1)) (b := .rep .digit 1 (some 3))
      h0 hdig
    simpa [intPart, MatchRes.andThen] using this

theorem leads_of_all_digits {p : Char → Bool} {s : List Char}
    (hs : s.all Char.isDigit = true) (hp : ∀ c, c.isDigit = true → p c = false) :
    leads p s = false := by
  cases s with
  | nil => rfl
  | cons c t =>
    simp only [List.all_cons, Bool.and_eq_true] at hs
    exact hp c hs.1

theorem isDigit_ne_dot {d : Char} (h : d.isDigit = true) : d ≠ '.' := by
  rintro rfl; simp [Char.isDigit] at h

/-- The pattern at the last (at most three) digits `x3` of the x coordinate,
followed by a comma and the digits `y3 ++ post` of the y coordinate, `y3` being
its first (at most three) digits: the match captures `x3` and `y3`. -/
theorem run_pointsRegex_clipped {x3 y3 post : List Char}
    (hx : x3.all Char.isDigit = true) (hx1 : 1 ≤ x3.length) (hx3 : x3.length ≤ 3)
    (hy : y3.all Char.isDigit = true) (hy1 : 1 ≤ y3.length) (hy3 : y3.length ≤ 3)
    (hpost : post.all Char.isDigit = true) (hcap : y3.length = 3 ∨ post = []) :
    (pointsRegex.run (x3 ++ ',' :: (y3 ++ post))).head?
      = some ⟨x3 ++ ',' :: y3, post, [(1, x3), (2, y3)]⟩ := by
  have g1 := run_group_head (i := 1)
    (run_intPart_unsigned (z := ',' :: (y3 ++ post)) hx hx1 hx3
      (Or.inr (by simp [leads, Char.isDigit])))
  have f1 : (fracPart.run (',' :: (y3 ++ post))).head?
      = some (MatchRes.eps (',' :: (y3 ++ post))) := by
    rw [run_fracPart_noDot (by simp [leads])]; rfl
  have cm : ((Re.chr ',').run (',' :: (y3 ++ post))).head?
      = some ⟨[','], y3 ++ post, []⟩ := by simp [Re.run]
  have g2 := run_group_head (i := 2)
    (run_intPart_unsigned (z := post) hy hy1 hy3
      (hcap.imp id (fun h => by rw [h]; rfl)))
  have f2 : (fracPart.run post).head? = some (MatchRes.eps post) := by
    rw [run_fracPart_noDot (leads_of_all_digits hpost
      (fun c hc => by simpa using isDigit_ne_dot hc))]
    rfl
  have t4 := run_seq_head (a := .group 2 intPart) (b := fracPart) g2 f2
  have t3 := run_seq_head (a := .chr ',') cm t4
  have t2 := run_seq_head (a := fracPart) (b := .seq (.chr ',') (.seq (.group 2 intPart) fracPart))
    (s := ',' :: (y3 ++ post)) f1 t3
  have t1 := run_seq_head (a := .group 1 intPart) g1 t2
  simpa [pointsRegex, MatchRes.andThen, MatchRes.eps] using t1

/-- No match starts inside a run of digits that ends the text. -/
theorem regexSearch_digits (s : List Char) (hs : s.all Char.isDigit = true) :
    regexSearch pointsRegex s = none := by
  induction s with
  | nil => simp [regexSearch, run_pointsRegex_nil]
  | cons c t ih =>
    have hrun : pointsRegex.run (c :: t) = [] := by
      apply run_pointsRegex_digits
      intro k d _ hk
      exact (List.all_eq_true.1 hs) d (List.getElem?_mem hk)
    rw [regexSearch_skip hrun]
    simp only [List.all_cons, Bool.and_eq_true] at hs
    exact ih hs.2

/-- No match starts at a digit that is followed by at least three more digits:
the search moves on to the last three digits before the comma. -/
theorem regexSearch_skip_digits (pre : List Char) (hpre : pre.all Char.isDigit = true)
    (x3 t : List Char) (hx : x3.all Char.isDigit = true) (hx3 : x3.length = 3) :
    regexSearch pointsRegex (pre ++ (x3 ++ t)) = regexSearch pointsRegex (x3 ++ t) := by
  induction pre with
  | nil => rfl
  | cons c p ih =>
    simp only [List.all_cons, Bool.and_eq_true] at hpre
    have hrun : pointsRegex.run (c :: (p ++ (x3 ++ t))) = [] := by
      apply run_pointsRegex_digits
      intro k d hk3 hk
      have hall : (c :: (p ++ x3)).all Char.isDigit = true := by
        simp [List.all_append, hpre.1, hpre.2, hx]
      have hlt : k < (c :: (p ++ x3)).length := by
        simp only [List.length_cons, List.length_append, hx3]; omega
      have e : c :: (p ++ (x3 ++ t)) = (c :: (p ++ x3)) ++ t := by simp
      rw [e, List.getElem?_append_left hlt] at hk
      exact (List.all_eq_true.1 hall) d (List.getElem?_mem hk)
    rw [List.cons_append, regexSearch_skip hrun]
    exact ih hpre.2

theorem parsePoints_clipped {F B : Type} (X : Externals F B) {pre x3 y3 post : List Char}
    (hpre : pre.all Char.isDigit = true) (hpre3 : pre = [] ∨ x3.length = 3)
    (hx : x3.all Char.isDigit = true) (hx1 : 1 ≤ x3.length) (hx3 : x3.length ≤ 3)
    (hy : y3.all Char.isDigit = true) (hy1 : 1 ≤ y3.length) (hy3 : y3.length ≤ 3)
    (hpost : post.all Char.isDigit = true) (hcap : y3.length = 3 ∨ post = []) :
    parsePoints X (pre ++ (x3 ++ ',' :: (y3 ++ post)))
      = some [(X.pixelToMeters (digitsValue x3), X.pixelToMeters (digitsValue y3))] := by
  have hhead := run_pointsRegex_clipped hx hx1 hx3 hy hy1 hy3 hpost hcap
  have hs : regexSearch pointsRegex (pre ++ (x3 ++ ',' :: (y3 ++ post)))
      = some ⟨x3 ++ ',' :: y3, post, [(1, x3), (2, y3)]⟩ := by
    rcases hpre3 with h | h
    · rw [h]; exact regexSearch_of_head hhead
    · rw [regexSearch_skip_digits pre hpre x3 _ hx h]; exact regexSearch_of_head hhead
  have hlen : post.length < (pre ++ (x3 ++ ',' :: (y3 ++ post))).length := by
    simp only [List.length_append, List.length_cons]; omega
  have hfuel : ∃ n, (pre ++ (x3 ++ ',' :: (y3 ++ post))).length = n + 1 := by
    refine ⟨(pre ++ (x3 ++ ',' :: (y3 ++ post))).length - 1, ?_⟩
    simp only [List.length_append, List.length_cons]; omega
  obtain ⟨n, hn⟩ := hfuel
  have hpt : pointOfMatch X ⟨x3 ++ ',' :: y3, post, [(1, x3), (2, y3)]⟩
      = some (X.pixelToMeters (digitsValue x3), X.pixelToMeters (digitsValue y3)) := by
    have s1 : MatchRes.sub ⟨x3 ++ ',' :: y3, post, [(1, x3), (2, y3)]⟩ 1 = x3 := by
      simp [MatchRes.sub, List.find?]
    have s2 : MatchRes.sub ⟨x3 ++ ',' :: y3, post, [(1, x3), (2, y3)]⟩ 2 = y3 := by
      simp [MatchRes.sub, List.find?]
    simp only [pointOfMatch, s1, s2, stoi_plain_digits x3 hx hx1 hx3,
      stoi_plain_digits y3 hy hy1 hy3]
  simp only [parsePoints, regexMatches, hn, regexIter, hs, regexSearch_digits post hpost,
    ite_self, List.mapM_cons, List.mapM_nil, hpt]
  rfl

/-- C15. Three-digit limit of the pattern: for a pair written with unsigned
digit strings of any length, the parser returns one pair, without exception or
skip, made of the value of the LAST three digits of the x coordinate (all of
them when there are at most three) and the value of the FIRST three digits of
the y coordinate; with more than three digits the pair therefore need not be
the one written. -/
theorem long_coordinates_clipped {F B : Type} (X : Externals F B) (xs ys : List Char)
    (hx : xs.all Char.isDigit = true) (hy : ys.all Char.isDigit = true)
    (hx1 : 1 ≤ xs.length) (hy1 : 1 ≤ ys.length) :
    parsePoints X (xs ++ ',' :: ys)
      = some [(X.pixelToMeters (digitsValue (xs.drop (xs.length - 3))),
               X.pixelToMeters (digitsValue (ys.take 3)))] := by
  have ex : xs ++ ',' :: ys
      = xs.take (xs.length - 3) ++ (xs.drop (xs.length - 3) ++ ',' :: (ys.take 3 ++ ys.drop 3)) := by
    rw [List.take_append_drop, ← List.append_assoc, List.take_append_drop]
  rw [ex]
  have hall : ∀ (l : List Char) (k : Nat), l.all Char.isDigit = true →
      (l.take k).all Char.isDigit = true ∧ (l.drop k).all Char.isDigit = true := by
    intro l k hl
    rw [List.all_eq_true] at hl
    constructor
    · exact List.all_eq_true.2 (fun c hc => hl c (List.mem_of_mem_take hc))
    · exact List.all_eq_true.2 (fun c hc => hl c (List.mem_of_mem_drop hc))
  apply parsePoints_clipped X (hall xs _ hx).1 _ (hall xs _ hx).2 _ _ (hall ys 3 hy).1 _ _
    (hall ys 3 hy).2
  · by_cases h : ys.length ≤ 3
    · right; simp [List.drop_eq_nil_iff, h]
    · left; simp only [List.length_take]; omega
  · by_cases h : xs.length ≤ 3
    · left; simp [List.take_eq_nil_iff]; omega
    · right; simp only [List.length_drop]; omega
  · simp only [List.length_drop]; omega
  · simp only [List.length_drop]; omega
  · simp only [List.length_take]; omega
  · simp only [List.length_take]; omega

/-- C15, evaluated on `points="1234,5678"`: the parsed pair is the conversion of
(234, 567), which is not the written pair (1234, 5678). -/
theorem long_coordinates_clipped_witness :
    parsePoints sampleExternals "1234,5678".toList
        = some [(sampleExternals.pixelToMeters 234, sampleExternals.pixelToMeters 567)] ∧
    ((234 : Int), (567 : Int)) ≠ (1234, 5678) :=
  ⟨long_coordinates_clipped sampleExternals "1234".toList "5678".toList
      (by decide) (by decide) (by decide) (by decide),
   by decide⟩

end Citm
